import Mathlib

set_option maxRecDepth 8000

/-!
Verification of the health-report data model of madmin-go (health-old.go).

The file under study is a passive data model: versioned health-report
envelopes (HealthInfoV0 / HealthInfoV2), nested per-node metric records,
and thin accessors plus JSON (de)serialization via Go's encoding/json.

The embedding below translates every structure and method of the source
file, together with a faithful model of encoding/json's behaviour on
these structures: a JSON document tree, Go's field/omitempty emission
rules, Marshal's failure conditions (NaN and infinite floats, RFC 3339
year range), the compact rendering of json.Marshal and the indented
rendering of json.MarshalIndent, and the decoding direction used by
json.Unmarshal (keyed field lookup, zero values for absent fields).
-/

/-- A float64 (or float32) value as Go has it.  A finite value is carried by
    its shortest round-trip decimal form, exactly the text strconv (and hence
    encoding/json) prints for it; that form is in bijection with the finite
    floats, and the source file performs no float arithmetic, so the decimal
    form is a faithful carrier of the value.  NaN and the two infinities are
    kept apart because encoding/json refuses to marshal them. -/
inductive GoFloat where
  | nan : GoFloat
  | inf : Bool → GoFloat
  | finite : List Char → GoFloat
deriving DecidableEq

/-- The zero float64, printed "0" by strconv. -/
def GoFloat.zero : GoFloat := .finite ['0']

/-- Go's omitempty test for a float field is v == 0.0, which holds for both
    +0 (printed "0") and -0 (printed "-0"). -/
def GoFloat.isZero : GoFloat → Bool
  | .finite cs => cs == ['0'] || cs == ['-', '0']
  | _ => false

/-- Broken-down UTC instant: the form in which time.Time is serialized
    (RFC 3339 with nanoseconds).  time.Time's MarshalJSON/UnmarshalJSON are
    an exact round trip on this data for years 0..9999. -/
structure GoTime where
  year : Nat
  month : Nat
  day : Nat
  hour : Nat
  minute : Nat
  second : Nat
  nsec : Nat
deriving DecidableEq

/-- Go's zero time.Time: January 1, year 1, 00:00:00 UTC. -/
def GoTime.zero : GoTime := ⟨1, 1, 1, 0, 0, 0, 0⟩

/-- A JSON document as encoding/json produces it for the structures at hand.
    Numbers keep their Go identity: integer fields appear as `jint`, float
    fields as `jflt` carrying the decimal lexeme strconv prints, and a
    serialized time.Time as `jtime` (a JSON string holding the RFC 3339 text,
    which UnmarshalJSON maps back to the instant exactly). -/
inductive JValue where
  | jstr : String → JValue
  | jint : Int → JValue
  | jflt : List Char → JValue
  | jbool : Bool → JValue
  | jtime : GoTime → JValue
  | jarr : List JValue → JValue
  | jobj : List (String × JValue) → JValue

/-- Field lookup in a JSON object, by exact key.  On the objects encoding/json
    emits for these structures keys are distinct and match the struct tags
    exactly, so this coincides with Unmarshal's field resolution. -/
def lookupF (k : String) : List (String × JValue) → Option JValue
  | [] => none
  | (k2, v) :: rest => if k2 = k then some v else lookupF k rest

/-! ## The structures of health-old.go

Field names and order follow the Go declarations; each field is annotated
with its json tag.  Go slices become lists, int/int32/int64 become Int,
uint64 becomes Nat, float64/float32 become GoFloat, time.Time becomes
GoTime. -/

/-- Modelled from the spec: `NodeCommon` is declared outside the file under
    study (only embedded here).  Spec §4.3: each per-node record "is keyed by
    node address and carries either populated fields or an error string
    describing why collection failed for that node"; its JSON fields are
    `addr` and an optional `error`. -/
structure NodeCommon where
  Addr : String        -- json:"addr"
  Error : String       -- json:"error,omitempty"
deriving DecidableEq

/-- Modelled from the spec: `SysInfo` (the V2 system-hardware section) is
    declared outside the file under study.  Spec §3/§4.3: a section of
    per-node diagnostic records, each keyed by node address and carrying its
    own optional error string. -/
structure SysInfo where
  Nodes : List NodeCommon   -- json:"nodes,omitempty"
deriving DecidableEq

/-- Modelled from the spec: `MinioHealthInfo` (the V2 MinIO-specific section)
    is declared outside the file under study.  Spec §3/§7: a nested section
    for MinIO-specific info that "independently and optionally carries its
    own error text"; the payload is kept opaque. -/
structure MinioHealthInfo where
  Info : String        -- json:"info,omitempty"  (opaque payload)
  Error : String       -- json:"error,omitempty"
deriving DecidableEq

/-- Latency contains write operation latency in seconds of a disk drive. -/
structure Latency where
  Avg : GoFloat            -- json:"avg"
  Max : GoFloat            -- json:"max"
  Min : GoFloat            -- json:"min"
  Percentile50 : GoFloat   -- json:"percentile_50"
  Percentile90 : GoFloat   -- json:"percentile_90"
  Percentile99 : GoFloat   -- json:"percentile_99"
deriving DecidableEq

/-- Throughput contains write performance in bytes per second of a disk drive. -/
structure Throughput where
  Avg : Nat                -- json:"avg"
  Max : Nat                -- json:"max"
  Min : Nat                -- json:"min"
  Percentile50 : Nat       -- json:"percentile_50"
  Percentile90 : Nat       -- json:"percentile_90"
  Percentile99 : Nat       -- json:"percentile_99"
deriving DecidableEq

/-- DrivePerfInfo contains disk drive's performance information. -/
structure DrivePerfInfo where
  Error : String           -- json:"error,omitempty"
  Path : String            -- json:"path"
  Latency : Latency        -- json:"latency,omitempty"
  Throughput : Throughput  -- json:"throughput,omitempty"
deriving DecidableEq

/-- DrivePerfInfos contains all disk drive's performance information of a node. -/
structure DrivePerfInfos where
  Node : NodeCommon                 -- embedded NodeCommon (flattened in JSON)
  SerialPerf : List DrivePerfInfo   -- json:"serial_perf,omitempty"
  ParallelPerf : List DrivePerfInfo -- json:"parallel_perf,omitempty"
deriving DecidableEq

/-- PeerNetPerfInfo contains network performance information of a node. -/
structure PeerNetPerfInfo where
  Node : NodeCommon        -- embedded NodeCommon (flattened in JSON)
  Latency : Latency        -- json:"latency,omitempty"
  Throughput : Throughput  -- json:"throughput,omitempty"
deriving DecidableEq

/-- NetPerfInfo contains network performance information of a node to other nodes. -/
structure NetPerfInfo where
  Node : NodeCommon                   -- embedded NodeCommon (flattened in JSON)
  RemotePeers : List PeerNetPerfInfo  -- json:"remote_peers,omitempty"
deriving DecidableEq

/-- PerfInfo - Includes Drive and Net perf info for the entire MinIO cluster. -/
structure PerfInfo where
  Drives : List DrivePerfInfos  -- json:"drives,omitempty"
  Net : List NetPerfInfo        -- json:"net,omitempty"
  NetParallel : NetPerfInfo     -- json:"net_parallel,omitempty"
deriving DecidableEq

/-- HealthInfoV2 - MinIO cluster's health Info version 2. -/
structure HealthInfoV2 where
  Version : String         -- json:"version"
  Error : String           -- json:"error,omitempty"
  TimeStamp : GoTime       -- json:"timestamp,omitempty"
  Sys : SysInfo            -- json:"sys,omitempty"
  Perf : PerfInfo          -- json:"perf,omitempty"
  Minio : MinioHealthInfo  -- json:"minio,omitempty"
deriving DecidableEq

/-- ServerCPUInfo - Includes cpu and timer stats of each node of the MinIO cluster. -/
structure ServerCPUInfo where
  Addr : String            -- json:"addr"
  Error : String           -- json:"error,omitempty"
deriving DecidableEq

/-- ServerDiskHwInfo - Includes usage counters, disk counters and partitions. -/
structure ServerDiskHwInfo where
  Addr : String            -- json:"addr"
  Error : String           -- json:"error,omitempty"
deriving DecidableEq

/-- ServerOsInfo - Includes host os information. -/
structure ServerOsInfo where
  Addr : String            -- json:"addr"
  Error : String           -- json:"error,omitempty"
deriving DecidableEq

/-- ServerMemInfo - Includes host virtual and swap mem information. -/
structure ServerMemInfo where
  Addr : String            -- json:"addr"
  Error : String           -- json:"error,omitempty"
deriving DecidableEq

/-- SysProcess - Includes process lvl information about a single process. -/
structure SysProcess where
  Pid : Int                -- json:"pid"
  Background : Bool        -- json:"background,omitempty"
  CPUPercent : GoFloat     -- json:"cpupercent,omitempty"
  Children : List Int      -- json:"children,omitempty"
  CmdLine : String         -- json:"cmd,omitempty"
  ConnectionCount : Int    -- json:"connection_count,omitempty"
  CreateTime : Int         -- json:"createtime,omitempty"
  Cwd : String             -- json:"cwd,omitempty"
  Exe : String             -- json:"exe,omitempty"
  Gids : List Int          -- json:"gids,omitempty"
  IsRunning : Bool         -- json:"isrunning,omitempty"
  MemPercent : GoFloat     -- json:"mempercent,omitempty" (float32)
  Name : String            -- json:"name,omitempty"
  Nice : Int               -- json:"nice,omitempty"
  NumFds : Int             -- json:"numfds,omitempty"
  NumThreads : Int         -- json:"numthreads,omitempty"
  Parent : Int             -- json:"parent,omitempty"
  Ppid : Int               -- json:"ppid,omitempty"
  Status : String          -- json:"status,omitempty"
  Tgid : Int               -- json:"tgid,omitempty"
  Uids : List Int          -- json:"uids,omitempty"
  Username : String        -- json:"username,omitempty"
deriving DecidableEq

/-- ServerProcInfo - Includes host process lvl information. -/
structure ServerProcInfo where
  Addr : String                -- json:"addr"
  Processes : List SysProcess  -- json:"processes,omitempty"
  Error : String               -- json:"error,omitempty"
deriving DecidableEq

/-- SysHealthInfo - Includes hardware and system information of the MinIO cluster. -/
structure SysHealthInfo where
  CPUInfo : List ServerCPUInfo        -- json:"cpus,omitempty"
  DiskHwInfo : List ServerDiskHwInfo  -- json:"drives,omitempty"
  OsInfo : List ServerOsInfo          -- json:"osinfos,omitempty"
  MemInfo : List ServerMemInfo        -- json:"meminfos,omitempty"
  ProcInfo : List ServerProcInfo      -- json:"procinfos,omitempty"
  Error : String                      -- json:"error,omitempty"
deriving DecidableEq

/-- HealthInfoV0 - MinIO cluster's health Info version 0. -/
structure HealthInfoV0 where
  TimeStamp : GoTime    -- json:"timestamp,omitempty"
  Error : String        -- json:"error,omitempty"
  Sys : SysHealthInfo   -- json:"sys,omitempty"
deriving DecidableEq

/-! ## The accessor methods of health-old.go -/

/-- GetError - returns error from the cluster health info v2.
    Source: `return info.Error`. -/
def HealthInfoV2.getError (info : HealthInfoV2) : String :=
  info.Error

/-- GetStatus - returns status of the cluster health info v2.
    Source: `if info.Error != "" { return "error" }; return "success"`. -/
def HealthInfoV2.getStatus (info : HealthInfoV2) : String :=
  if info.Error ≠ "" then "error" else "success"

/-- GetTimestamp - returns timestamp from the cluster health info v2.
    Source: `return info.TimeStamp`. -/
def HealthInfoV2.getTimestamp (info : HealthInfoV2) : GoTime :=
  info.TimeStamp

/-- GetOwner - returns owner of the process.  Source: `return sp.Username`. -/
def SysProcess.getOwner (sp : SysProcess) : String :=
  sp.Username

/-! ## encoding/json: the Marshal direction

encoding/json walks the struct in field-declaration order.  A field tagged
omitempty is skipped when its value is empty: the empty string, a zero
number, false, or a slice of length zero.  A struct-typed value is never
"empty" in this sense, so omitempty has no effect on struct fields.
Marshal fails (UnsupportedValueError) on NaN or infinite floats, and
time.Time.MarshalJSON fails when the year is outside 0..9999; the methods
of health-old.go turn that failure into a panic. -/

/-- Marshal a float: strconv's shortest decimal for a finite value,
    an UnsupportedValueError (none) for NaN or an infinity. -/
def encFlt : GoFloat → Option JValue
  | .finite cs => some (.jflt cs)
  | _ => none

/-- Marshal a time.Time: RFC 3339 text, failing when the year is not
    representable (time.Time.MarshalJSON: "year outside of range [0,9999]"). -/
def encTime (t : GoTime) : Option JValue :=
  if t.year ≤ 9999 then some (.jtime t) else none

/-- A required field. -/
def reqF (k : String) (v : JValue) : List (String × JValue) := [(k, v)]

/-- A string field tagged omitempty: skipped when the string is empty. -/
def optStrF (k : String) (s : String) : List (String × JValue) :=
  if s = "" then [] else [(k, .jstr s)]

/-- An integer field tagged omitempty: skipped when the value is zero. -/
def optIntF (k : String) (n : Int) : List (String × JValue) :=
  if n = 0 then [] else [(k, .jint n)]

/-- A bool field tagged omitempty: skipped when false. -/
def optBoolF (k : String) (b : Bool) : List (String × JValue) :=
  if b then [(k, .jbool b)] else []

/-- A slice field tagged omitempty: skipped when the slice has length zero
    (the emptiness test is on the source slice). -/
def optListF (k : String) (isEmpty : Bool) (xs : List JValue) : List (String × JValue) :=
  if isEmpty then [] else [(k, .jarr xs)]

/-- A float field tagged omitempty: skipped when the value compares equal to
    zero (which covers -0), otherwise marshalled and able to fail on NaN/Inf. -/
def optFltF (k : String) (f : GoFloat) : Option (List (String × JValue)) :=
  if f.isZero then some [] else (encFlt f).map (fun v => [(k, v)])

/-- Marshal each element of a slice, failing if any element fails. -/
def encList {a : Type} (f : a → Option JValue) : List a → Option (List JValue)
  | [] => some []
  | x :: xs => do
      let v ← f x
      let vs ← encList f xs
      pure (v :: vs)

/-- The flattened JSON fields of an embedded NodeCommon. -/
def nodeCommonFields (n : NodeCommon) : List (String × JValue) :=
  reqF "addr" (.jstr n.Addr) ++ optStrF "error" n.Error

def encNodeCommon (n : NodeCommon) : JValue :=
  .jobj (nodeCommonFields n)

def encSysInfo (s : SysInfo) : JValue :=
  .jobj (optListF "nodes" s.Nodes.isEmpty (s.Nodes.map encNodeCommon))

def encMinioHealthInfo (m : MinioHealthInfo) : JValue :=
  .jobj (optStrF "info" m.Info ++ optStrF "error" m.Error)

def encLatency (l : Latency) : Option JValue := do
  let a ← encFlt l.Avg
  let b ← encFlt l.Max
  let c ← encFlt l.Min
  let d ← encFlt l.Percentile50
  let e ← encFlt l.Percentile90
  let f ← encFlt l.Percentile99
  pure (.jobj (reqF "avg" a ++ reqF "max" b ++ reqF "min" c ++
    reqF "percentile_50" d ++ reqF "percentile_90" e ++ reqF "percentile_99" f))

def encThroughput (t : Throughput) : JValue :=
  .jobj (reqF "avg" (.jint t.Avg) ++ reqF "max" (.jint t.Max) ++ reqF "min" (.jint t.Min) ++
    reqF "percentile_50" (.jint t.Percentile50) ++ reqF "percentile_90" (.jint t.Percentile90) ++
    reqF "percentile_99" (.jint t.Percentile99))

def encDrivePerfInfo (d : DrivePerfInfo) : Option JValue := do
  let lat ← encLatency d.Latency
  pure (.jobj (optStrF "error" d.Error ++ reqF "path" (.jstr d.Path) ++
    reqF "latency" lat ++ reqF "throughput" (encThroughput d.Throughput)))

def encDrivePerfInfos (d : DrivePerfInfos) : Option JValue := do
  let sp ← encList encDrivePerfInfo d.SerialPerf
  let pp ← encList encDrivePerfInfo d.ParallelPerf
  pure (.jobj (nodeCommonFields d.Node ++
    optListF "serial_perf" d.SerialPerf.isEmpty sp ++
    optListF "parallel_perf" d.ParallelPerf.isEmpty pp))

def encPeerNetPerfInfo (p : PeerNetPerfInfo) : Option JValue := do
  let lat ← encLatency p.Latency
  pure (.jobj (nodeCommonFields p.Node ++ reqF "latency" lat ++
    reqF "throughput" (encThroughput p.Throughput)))

def encNetPerfInfo (n : NetPerfInfo) : Option JValue := do
  let rp ← encList encPeerNetPerfInfo n.RemotePeers
  pure (.jobj (nodeCommonFields n.Node ++
    optListF "remote_peers" n.RemotePeers.isEmpty rp))

def encPerfInfo (p : PerfInfo) : Option JValue := do
  let ds ← encList encDrivePerfInfos p.Drives
  let ns ← encList encNetPerfInfo p.Net
  let np ← encNetPerfInfo p.NetParallel
  pure (.jobj (optListF "drives" p.Drives.isEmpty ds ++
    optListF "net" p.Net.isEmpty ns ++ reqF "net_parallel" np))

def encHealthInfoV2 (x : HealthInfoV2) : Option JValue := do
  let ts ← encTime x.TimeStamp
  let perf ← encPerfInfo x.Perf
  pure (.jobj (reqF "version" (.jstr x.Version) ++ optStrF "error" x.Error ++
    reqF "timestamp" ts ++ reqF "sys" (encSysInfo x.Sys) ++
    reqF "perf" perf ++ reqF "minio" (encMinioHealthInfo x.Minio)))

def encServerCPUInfo (s : ServerCPUInfo) : JValue :=
  .jobj (reqF "addr" (.jstr s.Addr) ++ optStrF "error" s.Error)

def encServerDiskHwInfo (s : ServerDiskHwInfo) : JValue :=
  .jobj (reqF "addr" (.jstr s.Addr) ++ optStrF "error" s.Error)

def encServerOsInfo (s : ServerOsInfo) : JValue :=
  .jobj (reqF "addr" (.jstr s.Addr) ++ optStrF "error" s.Error)

def encServerMemInfo (s : ServerMemInfo) : JValue :=
  .jobj (reqF "addr" (.jstr s.Addr) ++ optStrF "error" s.Error)

def encSysProcess (p : SysProcess) : Option JValue := do
  let cpu ← optFltF "cpupercent" p.CPUPercent
  let mem ← optFltF "mempercent" p.MemPercent
  pure (.jobj (
    reqF "pid" (.jint p.Pid)
    ++ optBoolF "background" p.Background
    ++ cpu
    ++ optListF "children" p.Children.isEmpty (p.Children.map .jint)
    ++ optStrF "cmd" p.CmdLine
    ++ optIntF "connection_count" p.ConnectionCount
    ++ optIntF "createtime" p.CreateTime
    ++ optStrF "cwd" p.Cwd
    ++ optStrF "exe" p.Exe
    ++ optListF "gids" p.Gids.isEmpty (p.Gids.map .jint)
    ++ optBoolF "isrunning" p.IsRunning
    ++ mem
    ++ optStrF "name" p.Name
    ++ optIntF "nice" p.Nice
    ++ optIntF "numfds" p.NumFds
    ++ optIntF "numthreads" p.NumThreads
    ++ optIntF "parent" p.Parent
    ++ optIntF "ppid" p.Ppid
    ++ optStrF "status" p.Status
    ++ optIntF "tgid" p.Tgid
    ++ optListF "uids" p.Uids.isEmpty (p.Uids.map .jint)
    ++ optStrF "username" p.Username))

def encServerProcInfo (s : ServerProcInfo) : Option JValue := do
  let ps ← encList encSysProcess s.Processes
  pure (.jobj (reqF "addr" (.jstr s.Addr) ++
    optListF "processes" s.Processes.isEmpty ps ++ optStrF "error" s.Error))

def encSysHealthInfo (s : SysHealthInfo) : Option JValue := do
  let pi ← encList encServerProcInfo s.ProcInfo
  pure (.jobj (
    optListF "cpus" s.CPUInfo.isEmpty (s.CPUInfo.map encServerCPUInfo)
    ++ optListF "drives" s.DiskHwInfo.isEmpty (s.DiskHwInfo.map encServerDiskHwInfo)
    ++ optListF "osinfos" s.OsInfo.isEmpty (s.OsInfo.map encServerOsInfo)
    ++ optListF "meminfos" s.MemInfo.isEmpty (s.MemInfo.map encServerMemInfo)
    ++ optListF "procinfos" s.ProcInfo.isEmpty pi
    ++ optStrF "error" s.Error))

def encHealthInfoV0 (x : HealthInfoV0) : Option JValue := do
  let ts ← encTime x.TimeStamp
  let sys ← encSysHealthInfo x.Sys
  pure (.jobj (reqF "timestamp" ts ++ optStrF "error" x.Error ++ reqF "sys" sys))

/-! ## Rendering: the exact bytes of json.Marshal and json.MarshalIndent

json.Marshal emits compact JSON with no whitespace.  The methods of
health-old.go call json.MarshalIndent(info, " ", "    "): every newline is
followed by the prefix " " and four spaces per nesting level, and a colon
is followed by one space.  Strings are escaped as encoding/json does with
its default HTML escaping. -/

def digitChar (d : Nat) : Char := Char.ofNat (48 + d)

/-- Lowercase hex digit, as encoding/json prints in \u escapes. -/
def hexDigitChar (d : Nat) : Char :=
  if d < 10 then Char.ofNat (48 + d) else Char.ofNat (87 + d)

/-- A \uXXXX escape for one char (all escapes the encoder needs are < 0x10000). -/
def uEsc (c : Char) : List Char :=
  ['\\', 'u', hexDigitChar (c.toNat / 4096 % 16), hexDigitChar (c.toNat / 256 % 16),
   hexDigitChar (c.toNat / 16 % 16), hexDigitChar (c.toNat % 16)]

/-- encoding/json's escaping of one character of a string, HTML escaping on
    (the default used by Marshal): quote, backslash, the named control
    escapes, other control characters, the HTML characters and the two
    line-separator code points are escaped; everything else is copied. -/
def escChar (c : Char) : List Char :=
  if c = '"' then ['\\', '"']
  else if c = '\\' then ['\\', '\\']
  else if c = '\n' then ['\\', 'n']
  else if c = '\r' then ['\\', 'r']
  else if c = '\t' then ['\\', 't']
  else if c.toNat < 32 then uEsc c
  else if c = '<' then uEsc c
  else if c = '>' then uEsc c
  else if c = '&' then uEsc c
  else if c.toNat = 8232 then uEsc c
  else if c.toNat = 8233 then uEsc c
  else [c]

def escChars (cs : List Char) : List Char := cs.flatMap escChar

/-- Decimal digits of a natural number, most significant first (the fuel
    argument only bounds the recursion; n itself is always enough). -/
def natCharsAux : Nat → Nat → List Char → List Char
  | 0, _, acc => acc
  | fuel + 1, n, acc =>
      if n = 0 then acc else natCharsAux fuel (n / 10) (digitChar (n % 10) :: acc)

def natChars (n : Nat) : List Char :=
  if n = 0 then ['0'] else natCharsAux n n []

/-- Decimal form of an integer, as strconv prints it. -/
def intChars (n : Int) : List Char :=
  if n < 0 then '-' :: natChars n.natAbs else natChars n.natAbs

def pad2 (n : Nat) : List Char := [digitChar (n / 10 % 10), digitChar (n % 10)]

def pad4 (n : Nat) : List Char :=
  [digitChar (n / 1000 % 10), digitChar (n / 100 % 10), digitChar (n / 10 % 10),
   digitChar (n % 10)]

def pad9 (n : Nat) : List Char :=
  [digitChar (n / 100000000 % 10), digitChar (n / 10000000 % 10),
   digitChar (n / 1000000 % 10), digitChar (n / 100000 % 10),
   digitChar (n / 10000 % 10), digitChar (n / 1000 % 10),
   digitChar (n / 100 % 10), digitChar (n / 10 % 10), digitChar (n % 10)]

def dropTrailingZeros (cs : List Char) : List Char :=
  (cs.reverse.dropWhile (fun c => c = '0')).reverse

/-- The fractional-second part of RFC 3339 with nanoseconds: absent when the
    nanoseconds are zero, otherwise a dot and the nine digits with trailing
    zeros removed (time.Time.MarshalJSON's RFC3339Nano layout). -/
def fracChars (nsec : Nat) : List Char :=
  if nsec = 0 then [] else '.' :: dropTrailingZeros (pad9 nsec)

/-- The text of a marshalled UTC time.Time: RFC 3339 with nanoseconds. -/
def timeChars (t : GoTime) : List Char :=
  pad4 t.year ++ '-' :: pad2 t.month ++ '-' :: pad2 t.day ++
  'T' :: pad2 t.hour ++ ':' :: pad2 t.minute ++ ':' :: pad2 t.second ++
  fracChars t.nsec ++ ['Z']

mutual

/-- The compact rendering of a JSON document, byte for byte json.Marshal's. -/
def render : JValue → List Char
  | .jstr s => '"' :: escChars s.data ++ ['"']
  | .jint n => intChars n
  | .jflt cs => cs
  | .jbool b => if b then ['t', 'r', 'u', 'e'] else ['f', 'a', 'l', 's', 'e']
  | .jtime t => '"' :: escChars (timeChars t) ++ ['"']
  | .jarr xs => '[' :: renderArr xs ++ [']']
  | .jobj fs => '{' :: renderObj fs ++ ['}']

def renderArr : List JValue → List Char
  | [] => []
  | [x] => render x
  | x :: y :: xs => render x ++ ',' :: renderArr (y :: xs)

def renderObj : List (String × JValue) → List Char
  | [] => []
  | [(k, v)] => '"' :: escChars k.data ++ '"' :: ':' :: render v
  | (k, v) :: f :: fs =>
      ('"' :: escChars k.data ++ '"' :: ':' :: render v) ++ ',' :: renderObj (f :: fs)

end

/-- The whitespace json.Indent writes before an element at nesting depth d,
    for prefix " " and indent "    ". -/
def nlIndent (d : Nat) : List Char := '\n' :: ' ' :: List.replicate (4 * d) ' '

mutual

/-- The indented rendering at nesting depth d: the bytes of
    json.MarshalIndent(v, " ", "    ").  Empty objects and arrays stay on one
    line, as json.Indent leaves them. -/
def renderInd : Nat → JValue → List Char
  | _, .jstr s => '"' :: escChars s.data ++ ['"']
  | _, .jint n => intChars n
  | _, .jflt cs => cs
  | _, .jbool b => if b then ['t', 'r', 'u', 'e'] else ['f', 'a', 'l', 's', 'e']
  | _, .jtime t => '"' :: escChars (timeChars t) ++ ['"']
  | _, .jarr [] => ['[', ']']
  | d, .jarr (x :: xs) =>
      '[' :: (nlIndent (d + 1) ++ renderIndArr (d + 1) (x :: xs) ++ nlIndent d ++ [']'])
  | _, .jobj [] => ['{', '}']
  | d, .jobj (f :: fs) =>
      '{' :: (nlIndent (d + 1) ++ renderIndObj (d + 1) (f :: fs) ++ nlIndent d ++ ['}'])

def renderIndArr : Nat → List JValue → List Char
  | _, [] => []
  | d, [x] => renderInd d x
  | d, x :: y :: xs => renderInd d x ++ ',' :: (nlIndent d ++ renderIndArr d (y :: xs))

def renderIndObj : Nat → List (String × JValue) → List Char
  | _, [] => []
  | d, [(k, v)] => '"' :: escChars k.data ++ '"' :: ':' :: ' ' :: renderInd d v
  | d, (k, v) :: f :: fs =>
      ('"' :: escChars k.data ++ '"' :: ':' :: ' ' :: renderInd d v) ++
      ',' :: (nlIndent d ++ renderIndObj d (f :: fs))

end

/-! ## The String and JSON methods

Both methods marshal the receiver; when Marshal reports an error the source
panics (`panic(err) // This never happens.`), which the embedding represents
as `none`; otherwise the produced bytes are returned as a string. -/

/-- HealthInfoV2.String: `json.Marshal(info)`, panic on error. -/
def HealthInfoV2.string (info : HealthInfoV2) : Option String :=
  (encHealthInfoV2 info).map (fun m => ⟨render m⟩)

/-- HealthInfoV2.JSON: `json.MarshalIndent(info, " ", "    ")`, panic on error. -/
def HealthInfoV2.json (info : HealthInfoV2) : Option String :=
  (encHealthInfoV2 info).map (fun m => ⟨renderInd 0 m⟩)

/-- HealthInfoV0.String: `json.Marshal(info)`, panic on error. -/
def HealthInfoV0.string (info : HealthInfoV0) : Option String :=
  (encHealthInfoV0 info).map (fun m => ⟨render m⟩)

/-- HealthInfoV0.JSON: `json.MarshalIndent(info, " ", "    ")`, panic on error. -/
def HealthInfoV0.json (info : HealthInfoV0) : Option String :=
  (encHealthInfoV0 info).map (fun m => ⟨renderInd 0 m⟩)

/-! ## Zero values

The zero value of each structure, as Go initializes it and as
json.Unmarshal leaves fields that are absent from the input. -/

def Latency.zero : Latency := ⟨.zero, .zero, .zero, .zero, .zero, .zero⟩

def Throughput.zero : Throughput := ⟨0, 0, 0, 0, 0, 0⟩

def NodeCommon.zero : NodeCommon := ⟨"", ""⟩

def SysInfo.zero : SysInfo := ⟨[]⟩

def MinioHealthInfo.zero : MinioHealthInfo := ⟨"", ""⟩

def DrivePerfInfo.zero : DrivePerfInfo := ⟨"", "", .zero, .zero⟩

def DrivePerfInfos.zero : DrivePerfInfos := ⟨.zero, [], []⟩

def PeerNetPerfInfo.zero : PeerNetPerfInfo := ⟨.zero, .zero, .zero⟩

def NetPerfInfo.zero : NetPerfInfo := ⟨.zero, []⟩

def PerfInfo.zero : PerfInfo := ⟨[], [], .zero⟩

def HealthInfoV2.zero : HealthInfoV2 := ⟨"", "", .zero, .zero, .zero, .zero⟩

def ServerCPUInfo.zero : ServerCPUInfo := ⟨"", ""⟩

def ServerDiskHwInfo.zero : ServerDiskHwInfo := ⟨"", ""⟩

def ServerOsInfo.zero : ServerOsInfo := ⟨"", ""⟩

def ServerMemInfo.zero : ServerMemInfo := ⟨"", ""⟩

def SysProcess.zero : SysProcess :=
  ⟨0, false, .zero, [], "", 0, 0, "", "", [], false, .zero, "", 0, 0, 0, 0, 0, "", 0, [], ""⟩

def ServerProcInfo.zero : ServerProcInfo := ⟨"", [], ""⟩

def SysHealthInfo.zero : SysHealthInfo := ⟨[], [], [], [], [], ""⟩

def HealthInfoV0.zero : HealthInfoV0 := ⟨.zero, "", .zero⟩

/-! ## State-passing forms of the methods

Every method of health-old.go takes its receiver by value and its body
contains no assignment to the receiver or to anything reachable from it;
the state-passing translation therefore returns the result of the body
together with the receiver as the method leaves it. -/

def HealthInfoV2.stringS (info : HealthInfoV2) : Option String × HealthInfoV2 :=
  (info.string, info)

def HealthInfoV2.jsonS (info : HealthInfoV2) : Option String × HealthInfoV2 :=
  (info.json, info)

def HealthInfoV2.getErrorS (info : HealthInfoV2) : String × HealthInfoV2 :=
  (info.getError, info)

def HealthInfoV2.getStatusS (info : HealthInfoV2) : String × HealthInfoV2 :=
  (info.getStatus, info)

def HealthInfoV2.getTimestampS (info : HealthInfoV2) : GoTime × HealthInfoV2 :=
  (info.getTimestamp, info)

def HealthInfoV0.stringS (info : HealthInfoV0) : Option String × HealthInfoV0 :=
  (info.string, info)

def HealthInfoV0.jsonS (info : HealthInfoV0) : Option String × HealthInfoV0 :=
  (info.json, info)

def SysProcess.getOwnerS (sp : SysProcess) : String × SysProcess :=
  (sp.getOwner, sp)

/-! ## Claims about the accessors -/

/-- C1: for every HealthInfoV2 report, GetStatus returns "error" iff the
    top-level Error field is a non-empty string, and "success" otherwise. -/
theorem HealthInfoV2.getStatus_error_iff (info : HealthInfoV2) :
    (info.getStatus = "error" ↔ info.Error ≠ "") ∧
    (info.getStatus = "success" ↔ info.Error = "") := by
  unfold HealthInfoV2.getStatus
  by_cases h : info.Error = "" <;> simp [h]

/-- C5: the report-level status depends solely on the top-level Error field:
    two HealthInfoV2 reports that agree on Error, however much every other
    field differs (including error strings nested inside Sys, Perf or Minio),
    get the same GetStatus. -/
theorem HealthInfoV2.getStatus_noninterference (a b : HealthInfoV2)
    (h : a.Error = b.Error) : a.getStatus = b.getStatus := by
  unfold HealthInfoV2.getStatus
  rw [h]

/-- Two concrete reports agreeing on Error but differing in version,
    timestamp and the error strings nested inside Sys, Perf and Minio. -/
def hiC5a : HealthInfoV2 :=
  { HealthInfoV2.zero with
    Version := "2022-06-01T00:00:00Z",
    Error := "",
    Sys := ⟨[⟨"node1:9000", "cpu probe failed"⟩]⟩,
    Minio := ⟨"cfg", "minio section failed"⟩ }

def hiC5b : HealthInfoV2 :=
  { HealthInfoV2.zero with
    Version := "3",
    Error := "",
    TimeStamp := ⟨2022, 6, 1, 12, 0, 0, 0⟩,
    Sys := ⟨[⟨"node2:9000", ""⟩, ⟨"node3:9000", "mem probe failed"⟩]⟩,
    Perf := ⟨[], [⟨⟨"node2:9000", "net probe failed"⟩, []⟩], .zero⟩ }

/-- Witness for C5: the two concrete reports differ, agree on Error, and the
    noninterference theorem yields equal statuses for them. -/
theorem HealthInfoV2.getStatus_noninterference_witness :
    hiC5a ≠ hiC5b ∧ hiC5a.Error = hiC5b.Error ∧ hiC5a.getStatus = hiC5b.getStatus :=
  ⟨by decide, rfl, HealthInfoV2.getStatus_noninterference hiC5a hiC5b rfl⟩

/-- C7: GetError returns exactly the top-level Error string of the report,
    whatever the other fields hold. -/
theorem HealthInfoV2.getError_spec (info : HealthInfoV2) :
    info.getError = info.Error := rfl

/-- C9: GetOwner returns exactly the Username field of the process record,
    not any of the Uids/Gids identifiers. -/
theorem SysProcess.getOwner_spec (sp : SysProcess) :
    sp.getOwner = sp.Username := rfl

/-- C8: every operation on a health report (String, JSON, GetError,
    GetStatus, GetTimestamp, GetOwner) leaves the receiver unchanged: in the
    state-passing form of each method the receiver after the call equals the
    receiver it was called on. -/
theorem healthInfo_methods_pure (x : HealthInfoV2) (p : SysProcess) (y : HealthInfoV0) :
    x.stringS.2 = x ∧ x.jsonS.2 = x ∧ x.getErrorS.2 = x ∧ x.getStatusS.2 = x ∧
    x.getTimestampS.2 = x ∧ p.getOwnerS.2 = p ∧ y.stringS.2 = y ∧ y.jsonS.2 = y :=
  ⟨rfl, rfl, rfl, rfl, rfl, rfl, rfl, rfl⟩

/-! ## When Marshal succeeds (claim C4)

encoding/json fails on NaN and infinite floats, and time.Time.MarshalJSON
fails on years above 9999; on everything else these plain-data structures
marshal.  The predicates below say "every float reachable from this value
is finite and every timestamp year is in range". -/

def GoFloat.finiteB : GoFloat → Bool
  | .finite _ => true
  | _ => false

def GoTime.wf (t : GoTime) : Bool := t.year ≤ 9999

def Latency.wf (l : Latency) : Bool :=
  l.Avg.finiteB && l.Max.finiteB && l.Min.finiteB &&
  l.Percentile50.finiteB && l.Percentile90.finiteB && l.Percentile99.finiteB

def DrivePerfInfo.wf (d : DrivePerfInfo) : Bool := d.Latency.wf

def DrivePerfInfos.wf (d : DrivePerfInfos) : Bool :=
  d.SerialPerf.all DrivePerfInfo.wf && d.ParallelPerf.all DrivePerfInfo.wf

def PeerNetPerfInfo.wf (p : PeerNetPerfInfo) : Bool := p.Latency.wf

def NetPerfInfo.wf (n : NetPerfInfo) : Bool := n.RemotePeers.all PeerNetPerfInfo.wf

def PerfInfo.wf (p : PerfInfo) : Bool :=
  p.Drives.all DrivePerfInfos.wf && p.Net.all NetPerfInfo.wf && p.NetParallel.wf

def HealthInfoV2.wf (x : HealthInfoV2) : Bool := x.TimeStamp.wf && x.Perf.wf

def SysProcess.wf (p : SysProcess) : Bool :=
  p.CPUPercent.finiteB && p.MemPercent.finiteB

def ServerProcInfo.wf (s : ServerProcInfo) : Bool := s.Processes.all SysProcess.wf

def SysHealthInfo.wf (s : SysHealthInfo) : Bool := s.ProcInfo.all ServerProcInfo.wf

def HealthInfoV0.wf (x : HealthInfoV0) : Bool := x.TimeStamp.wf && x.Sys.wf

theorem encFlt_ex {f : GoFloat} (h : f.finiteB = true) :
    ∃ v, encFlt f = some v := by
  cases f with
  | finite cs => exact ⟨.jflt cs, rfl⟩
  | nan => simp [GoFloat.finiteB] at h
  | inf b => simp [GoFloat.finiteB] at h

theorem encTime_ex {t : GoTime} (h : t.wf = true) :
    ∃ v, encTime t = some v := by
  simp [GoTime.wf] at h
  simp [encTime, h]

theorem encList_ex {a : Type} {f : a → Option JValue} :
    ∀ {xs : List a}, (∀ x ∈ xs, ∃ v, f x = some v) → ∃ vs, encList f xs = some vs := by
  intro xs
  induction xs with
  | nil => intro _; exact ⟨[], rfl⟩
  | cons x xs ih =>
      intro h
      obtain ⟨v, hv⟩ := h x (by simp)
      obtain ⟨vs, hvs⟩ := ih (fun y hy => h y (by simp [hy]))
      exact ⟨v :: vs, by simp [encList, hv, hvs]⟩

theorem encLatency_ex {l : Latency} (h : l.wf = true) :
    ∃ v, encLatency l = some v := by
  simp [Latency.wf, Bool.and_eq_true] at h
  obtain ⟨⟨⟨⟨⟨h1, h2⟩, h3⟩, h4⟩, h5⟩, h6⟩ := h
  obtain ⟨v1, e1⟩ := encFlt_ex h1
  obtain ⟨v2, e2⟩ := encFlt_ex h2
  obtain ⟨v3, e3⟩ := encFlt_ex h3
  obtain ⟨v4, e4⟩ := encFlt_ex h4
  obtain ⟨v5, e5⟩ := encFlt_ex h5
  obtain ⟨v6, e6⟩ := encFlt_ex h6
  unfold encLatency
  rw [e1, e2, e3, e4, e5, e6]
  exact ⟨_, rfl⟩

theorem encDrivePerfInfo_ex {d : DrivePerfInfo} (h : d.wf = true) :
    ∃ v, encDrivePerfInfo d = some v := by
  obtain ⟨v, e⟩ := encLatency_ex (l := d.Latency) h
  unfold encDrivePerfInfo
  rw [e]
  exact ⟨_, rfl⟩

theorem encDrivePerfInfos_ex {d : DrivePerfInfos} (h : d.wf = true) :
    ∃ v, encDrivePerfInfos d = some v := by
  simp [DrivePerfInfos.wf, Bool.and_eq_true, List.all_eq_true] at h
  obtain ⟨hs, hp⟩ := h
  obtain ⟨vs, es⟩ := encList_ex (fun x hx => encDrivePerfInfo_ex (hs x hx))
  obtain ⟨vp, ep⟩ := encList_ex (fun x hx => encDrivePerfInfo_ex (hp x hx))
  unfold encDrivePerfInfos
  rw [es, ep]
  exact ⟨_, rfl⟩

theorem encPeerNetPerfInfo_ex {p : PeerNetPerfInfo} (h : p.wf = true) :
    ∃ v, encPeerNetPerfInfo p = some v := by
  obtain ⟨v, e⟩ := encLatency_ex (l := p.Latency) h
  unfold encPeerNetPerfInfo
  rw [e]
  exact ⟨_, rfl⟩

theorem encNetPerfInfo_ex {n : NetPerfInfo} (h : n.wf = true) :
    ∃ v, encNetPerfInfo n = some v := by
  simp [NetPerfInfo.wf, List.all_eq_true] at h
  obtain ⟨vs, es⟩ := encList_ex (fun x hx => encPeerNetPerfInfo_ex (h x hx))
  unfold encNetPerfInfo
  rw [es]
  exact ⟨_, rfl⟩

theorem encPerfInfo_ex {p : PerfInfo} (h : p.wf = true) :
    ∃ v, encPerfInfo p = some v := by
  simp [PerfInfo.wf, Bool.and_eq_true, List.all_eq_true] at h
  obtain ⟨⟨hd, hn⟩, hq⟩ := h
  obtain ⟨vd, ed⟩ := encList_ex (fun x hx => encDrivePerfInfos_ex (hd x hx))
  obtain ⟨vn, en⟩ := encList_ex (fun x hx => encNetPerfInfo_ex (hn x hx))
  obtain ⟨vq, eq1⟩ := encNetPerfInfo_ex hq
  unfold encPerfInfo
  rw [ed, en, eq1]
  exact ⟨_, rfl⟩

theorem encHealthInfoV2_ex {x : HealthInfoV2} (h : x.wf = true) :
    ∃ v, encHealthInfoV2 x = some v := by
  simp [HealthInfoV2.wf, Bool.and_eq_true] at h
  obtain ⟨ht, hp⟩ := h
  obtain ⟨vt, et⟩ := encTime_ex ht
  obtain ⟨vp, ep⟩ := encPerfInfo_ex hp
  unfold encHealthInfoV2
  rw [et, ep]
  exact ⟨_, rfl⟩

theorem encOptFltF_ex {k : String} {f : GoFloat} (h : f.finiteB = true) :
    ∃ v, optFltF k f = some v := by
  unfold optFltF
  by_cases hz : f.isZero = true
  · rw [if_pos hz]
    exact ⟨[], rfl⟩
  · obtain ⟨v, e⟩ := encFlt_ex h
    rw [if_neg hz, e]
    exact ⟨_, rfl⟩

theorem encSysProcess_ex {p : SysProcess} (h : p.wf = true) :
    ∃ v, encSysProcess p = some v := by
  simp [SysProcess.wf, Bool.and_eq_true] at h
  obtain ⟨hc, hm⟩ := h
  obtain ⟨vc, ec⟩ := encOptFltF_ex (k := "cpupercent") hc
  obtain ⟨vm, em⟩ := encOptFltF_ex (k := "mempercent") hm
  unfold encSysProcess
  rw [ec, em]
  exact ⟨_, rfl⟩

theorem encServerProcInfo_ex {s : ServerProcInfo} (h : s.wf = true) :
    ∃ v, encServerProcInfo s = some v := by
  simp [ServerProcInfo.wf, List.all_eq_true] at h
  obtain ⟨vs, es⟩ := encList_ex (fun x hx => encSysProcess_ex (h x hx))
  unfold encServerProcInfo
  rw [es]
  exact ⟨_, rfl⟩

theorem encSysHealthInfo_ex {s : SysHealthInfo} (h : s.wf = true) :
    ∃ v, encSysHealthInfo s = some v := by
  simp [SysHealthInfo.wf, List.all_eq_true] at h
  obtain ⟨vs, es⟩ := encList_ex (fun x hx => encServerProcInfo_ex (h x hx))
  unfold encSysHealthInfo
  rw [es]
  exact ⟨_, rfl⟩

theorem encHealthInfoV0_ex {x : HealthInfoV0} (h : x.wf = true) :
    ∃ v, encHealthInfoV0 x = some v := by
  simp [HealthInfoV0.wf, Bool.and_eq_true] at h
  obtain ⟨ht, hs⟩ := h
  obtain ⟨vt, et⟩ := encTime_ex ht
  obtain ⟨vs, es⟩ := encSysHealthInfo_ex hs
  unfold encHealthInfoV0
  rw [et, es]
  exact ⟨_, rfl⟩

/-- A report whose Perf section holds one drive measurement with a NaN
    average latency: a value Go's type system fully permits. -/
def hiC4 : HealthInfoV2 :=
  { HealthInfoV2.zero with
    Perf := ⟨[⟨⟨"node1:9000", ""⟩, [⟨"", "/disk1", { Latency.zero with Avg := .nan }, .zero⟩], []⟩],
             [], .zero⟩ }

/-- Counterexample to C4 as stated: on hiC4, json.Marshal reports an
    unsupported-value error (NaN cannot be encoded), so String and JSON do
    not return a string - the defensive panic fires.  The panic branch is
    reachable. -/
theorem marshal_panic_reachable : hiC4.string = none ∧ hiC4.json = none := by
  constructor <;> rfl

/-- C4 as amended: for every HealthInfoV0 and HealthInfoV2 value all of whose
    float fields are finite (no NaN or infinity) and whose timestamp year is
    at most 9999, String and JSON do return a string: the panic branch is not
    taken there.  (The stated claim fails only because float64 admits NaN and
    infinities and time.Time admits years beyond 9999.) -/
theorem string_json_total_of_wf (x : HealthInfoV2) (y : HealthInfoV0)
    (hx : x.wf = true) (hy : y.wf = true) :
    x.string.isSome ∧ x.json.isSome ∧ y.string.isSome ∧ y.json.isSome := by
  obtain ⟨vx, ex⟩ := encHealthInfoV2_ex hx
  obtain ⟨vy, ey⟩ := encHealthInfoV0_ex hy
  simp [HealthInfoV2.string, HealthInfoV2.json, HealthInfoV0.string, HealthInfoV0.json, ex, ey]

/-- Witness for C4's amended theorem at concrete well-formed reports. -/
theorem string_json_total_of_wf_witness :
    HealthInfoV2.zero.wf = true ∧ HealthInfoV0.zero.wf = true ∧
    (HealthInfoV2.zero.string.isSome ∧ HealthInfoV2.zero.json.isSome ∧
     HealthInfoV0.zero.string.isSome ∧ HealthInfoV0.zero.json.isSome) :=
  ⟨by decide, by decide, string_json_total_of_wf HealthInfoV2.zero HealthInfoV0.zero
    (by decide) (by decide)⟩

/-! ## Which fields appear in the output (claims C2 and C10)

encoding/json's omitempty omits the empty string, zero numbers, false and
empty slices, but a struct value is never "empty", so omitempty is inert
on the struct-typed fields (Sys, Perf, Minio, Latency, Throughput and the
time.Time timestamp). -/

/-- The keys of the top-level object of a document. -/
def topKeys : JValue → List String
  | .jobj fs => fs.map Prod.fst
  | _ => []

def startsWithL : List Char → List Char → Bool
  | [], _ => true
  | _ :: _, [] => false
  | p :: ps, c :: cs => p == c && startsWithL ps cs

/-- Substring test on character lists. -/
def occursIn (pat : List Char) : List Char → Bool
  | [] => startsWithL pat []
  | c :: cs => startsWithL pat (c :: cs) || occursIn pat cs

theorem keys_reqF (k : String) (v : JValue) : (reqF k v).map Prod.fst = [k] := rfl

theorem keys_optStrF (k s : String) :
    (optStrF k s).map Prod.fst = if s = "" then [] else [k] := by
  unfold optStrF
  split <;> rfl

theorem keys_optIntF (k : String) (n : Int) :
    (optIntF k n).map Prod.fst = if n = 0 then [] else [k] := by
  unfold optIntF
  split <;> rfl

theorem keys_optBoolF (k : String) (b : Bool) :
    (optBoolF k b).map Prod.fst = if b then [k] else [] := by
  unfold optBoolF
  split <;> rfl

theorem keys_optListF (k : String) (e : Bool) (xs : List JValue) :
    (optListF k e xs).map Prod.fst = if e then [] else [k] := by
  unfold optListF
  split <;> rfl

theorem keys_optFltF {k : String} {f : GoFloat} {l : List (String × JValue)}
    (h : optFltF k f = some l) :
    l.map Prod.fst = if f.isZero then [] else [k] := by
  unfold optFltF at h
  split at h
  · rename_i hz
    simp at h
    simp [← h, hz]
  · rename_i hz
    cases hf : encFlt f with
    | none => rw [hf] at h; simp at h
    | some v => rw [hf] at h; simp at h; simp [← h, hz]

/-- Counterexample to C2 as stated: in the all-zero HealthInfoV2 report the
    struct-typed optional fields Sys and the timestamp hold their zero
    values, yet the compact output of String still contains the keys "sys"
    and "timestamp" (and "perf" and "minio"): omitempty does not remove
    struct-typed fields. -/
theorem omitempty_struct_counterexample :
    HealthInfoV2.zero.Sys = SysInfo.zero ∧
    HealthInfoV2.zero.TimeStamp = GoTime.zero ∧
    HealthInfoV2.zero.string.map
      (fun s => occursIn ('"' :: "sys".data ++ ['"']) s.data &&
        occursIn ('"' :: "timestamp".data ++ ['"']) s.data &&
        occursIn ('"' :: "perf".data ++ ['"']) s.data &&
        occursIn ('"' :: "minio".data ++ ['"']) s.data) = some true := by
  refine ⟨rfl, rfl, ?_⟩
  decide

/-- C2 as amended: omitempty removes exactly the empty scalar and slice
    fields - an empty string, a zero number, false, an empty slice - but has
    no effect on struct-typed fields: Sys, Perf, Minio and the timestamp of
    HealthInfoV2, and the Latency/Throughput sections of a drive record, are
    present in the output whatever their contents.  Stated as exact formulas
    for the emitted keys of a report, a process record, a drive record and a
    V0 system section. -/
theorem omitempty_keys_spec (x : HealthInfoV2) (p : SysProcess) (d : DrivePerfInfo)
    (s : SysHealthInfo) (mx mp md ms : JValue)
    (hx : encHealthInfoV2 x = some mx) (hp : encSysProcess p = some mp)
    (hd : encDrivePerfInfo d = some md) (hs : encSysHealthInfo s = some ms) :
    topKeys mx = "version" ::
      ((if x.Error = "" then [] else ["error"]) ++ ["timestamp", "sys", "perf", "minio"]) ∧
    topKeys mp = "pid" ::
      ((if p.Background then ["background"] else []) ++
       (if p.CPUPercent.isZero then [] else ["cpupercent"]) ++
       (if p.Children.isEmpty then [] else ["children"]) ++
       (if p.CmdLine = "" then [] else ["cmd"]) ++
       (if p.ConnectionCount = 0 then [] else ["connection_count"]) ++
       (if p.CreateTime = 0 then [] else ["createtime"]) ++
       (if p.Cwd = "" then [] else ["cwd"]) ++
       (if p.Exe = "" then [] else ["exe"]) ++
       (if p.Gids.isEmpty then [] else ["gids"]) ++
       (if p.IsRunning then ["isrunning"] else []) ++
       (if p.MemPercent.isZero then [] else ["mempercent"]) ++
       (if p.Name = "" then [] else ["name"]) ++
       (if p.Nice = 0 then [] else ["nice"]) ++
       (if p.NumFds = 0 then [] else ["numfds"]) ++
       (if p.NumThreads = 0 then [] else ["numthreads"]) ++
       (if p.Parent = 0 then [] else ["parent"]) ++
       (if p.Ppid = 0 then [] else ["ppid"]) ++
       (if p.Status = "" then [] else ["status"]) ++
       (if p.Tgid = 0 then [] else ["tgid"]) ++
       (if p.Uids.isEmpty then [] else ["uids"]) ++
       (if p.Username = "" then [] else ["username"])) ∧
    topKeys md = (if d.Error = "" then [] else ["error"]) ++ ["path", "latency", "throughput"] ∧
    topKeys ms = (if s.CPUInfo.isEmpty then [] else ["cpus"]) ++
      (if s.DiskHwInfo.isEmpty then [] else ["drives"]) ++
      (if s.OsInfo.isEmpty then [] else ["osinfos"]) ++
      (if s.MemInfo.isEmpty then [] else ["meminfos"]) ++
      (if s.ProcInfo.isEmpty then [] else ["procinfos"]) ++
      (if s.Error = "" then [] else ["error"]) := by
  refine ⟨?_, ?_, ?_, ?_⟩
  · unfold encHealthInfoV2 at hx
    simp only [bind, Option.bind_eq_some] at hx
    obtain ⟨ts, hts, pf, hpf, hm⟩ := hx
    simp only [pure, Option.some.injEq] at hm
    subst hm
    simp [topKeys, reqF, keys_optStrF]
  · unfold encSysProcess at hp
    simp only [bind, Option.bind_eq_some] at hp
    obtain ⟨vc, hvc, vm, hvm, hm⟩ := hp
    simp only [pure, Option.some.injEq] at hm
    subst hm
    simp only [topKeys, List.map_append, keys_reqF, keys_optStrF, keys_optIntF,
      keys_optBoolF, keys_optListF, keys_optFltF hvc, keys_optFltF hvm]
    simp
  · unfold encDrivePerfInfo at hd
    simp only [bind, Option.bind_eq_some] at hd
    obtain ⟨lat, hlat, hm⟩ := hd
    simp only [pure, Option.some.injEq] at hm
    subst hm
    simp [topKeys, reqF, keys_optStrF]
  · unfold encSysHealthInfo at hs
    simp only [bind, Option.bind_eq_some] at hs
    obtain ⟨pi, hpi, hm⟩ := hs
    simp only [pure, Option.some.injEq] at hm
    subst hm
    simp [topKeys, reqF, keys_optStrF, keys_optListF]

/-- Concrete inputs for the C2 witness: a report with a non-empty top-level
    error, a populated process record, and zero drive/system records. -/
def hiC2 : HealthInfoV2 := { HealthInfoV2.zero with Error := "disk read timeout" }

def spC2 : SysProcess := { SysProcess.zero with Pid := 1234, Name := "minio", Background := true }

def mxC2 : JValue := (encHealthInfoV2 hiC2).getD (.jobj [])

def mpC2 : JValue := (encSysProcess spC2).getD (.jobj [])

def mdC2 : JValue := (encDrivePerfInfo DrivePerfInfo.zero).getD (.jobj [])

def msC2 : JValue := (encSysHealthInfo SysHealthInfo.zero).getD (.jobj [])

/-- Witness for C2's amended theorem at the concrete inputs. -/
theorem omitempty_keys_spec_witness :
    topKeys mxC2 = "version" ::
      ((if hiC2.Error = "" then [] else ["error"]) ++ ["timestamp", "sys", "perf", "minio"]) ∧
    topKeys mpC2 = "pid" ::
      ((if spC2.Background then ["background"] else []) ++
       (if spC2.CPUPercent.isZero then [] else ["cpupercent"]) ++
       (if spC2.Children.isEmpty then [] else ["children"]) ++
       (if spC2.CmdLine = "" then [] else ["cmd"]) ++
       (if spC2.ConnectionCount = 0 then [] else ["connection_count"]) ++
       (if spC2.CreateTime = 0 then [] else ["createtime"]) ++
       (if spC2.Cwd = "" then [] else ["cwd"]) ++
       (if spC2.Exe = "" then [] else ["exe"]) ++
       (if spC2.Gids.isEmpty then [] else ["gids"]) ++
       (if spC2.IsRunning then ["isrunning"] else []) ++
       (if spC2.MemPercent.isZero then [] else ["mempercent"]) ++
       (if spC2.Name = "" then [] else ["name"]) ++
       (if spC2.Nice = 0 then [] else ["nice"]) ++
       (if spC2.NumFds = 0 then [] else ["numfds"]) ++
       (if spC2.NumThreads = 0 then [] else ["numthreads"]) ++
       (if spC2.Parent = 0 then [] else ["parent"]) ++
       (if spC2.Ppid = 0 then [] else ["ppid"]) ++
       (if spC2.Status = "" then [] else ["status"]) ++
       (if spC2.Tgid = 0 then [] else ["tgid"]) ++
       (if spC2.Uids.isEmpty then [] else ["uids"]) ++
       (if spC2.Username = "" then [] else ["username"])) ∧
    topKeys mdC2 = (if DrivePerfInfo.zero.Error = "" then [] else ["error"]) ++
      ["path", "latency", "throughput"] ∧
    topKeys msC2 = (if SysHealthInfo.zero.CPUInfo.isEmpty then [] else ["cpus"]) ++
      (if SysHealthInfo.zero.DiskHwInfo.isEmpty then [] else ["drives"]) ++
      (if SysHealthInfo.zero.OsInfo.isEmpty then [] else ["osinfos"]) ++
      (if SysHealthInfo.zero.MemInfo.isEmpty then [] else ["meminfos"]) ++
      (if SysHealthInfo.zero.ProcInfo.isEmpty then [] else ["procinfos"]) ++
      (if SysHealthInfo.zero.Error = "" then [] else ["error"]) :=
  omitempty_keys_spec hiC2 spC2 DrivePerfInfo.zero SysHealthInfo.zero
    mxC2 mpC2 mdC2 msC2 rfl rfl rfl rfl

/-! ## encoding/json: the Unmarshal direction

json.Unmarshal decodes an object into a struct by matching keys to field
tags; a field whose key is absent keeps its zero value; a present field
must decode at the field's type.  On the objects produced by Marshal for
these structures (distinct keys, exactly the tag names) this is keyed
lookup with zero-value defaults. -/

def readStr : JValue → Option String
  | .jstr s => some s
  | _ => none

def readInt : JValue → Option Int
  | .jint n => some n
  | _ => none

/-- Unmarshal into uint64: a negative number is rejected. -/
def readNat : JValue → Option Nat
  | .jint n => if n < 0 then none else some n.toNat
  | _ => none

def readFlt : JValue → Option GoFloat
  | .jflt cs => some (.finite cs)
  | _ => none

def readBool : JValue → Option Bool
  | .jbool b => some b
  | _ => none

def readTime : JValue → Option GoTime
  | .jtime t => some t
  | _ => none

def decList {a : Type} (r : JValue → Option a) : List JValue → Option (List a)
  | [] => some []
  | x :: xs => do
      let v ← r x
      let vs ← decList r xs
      pure (v :: vs)

def readList {a : Type} (r : JValue → Option a) : JValue → Option (List a)
  | .jarr xs => decList r xs
  | _ => none

/-- Decode one field: absent keys keep the zero value d. -/
def fieldD {a : Type} (fs : List (String × JValue)) (k : String)
    (r : JValue → Option a) (d : a) : Option a :=
  match lookupF k fs with
  | none => some d
  | some v => r v

/-- The embedded NodeCommon fields, read from the same (flattened) object. -/
def decNodeCommonFields (fs : List (String × JValue)) : Option NodeCommon := do
  let addr ← fieldD fs "addr" readStr ""
  let err ← fieldD fs "error" readStr ""
  pure ⟨addr, err⟩

def decNodeCommon : JValue → Option NodeCommon
  | .jobj fs => decNodeCommonFields fs
  | _ => none

def decSysInfo : JValue → Option SysInfo
  | .jobj fs => do
      let nodes ← fieldD fs "nodes" (readList decNodeCommon) []
      pure ⟨nodes⟩
  | _ => none

def decMinioHealthInfo : JValue → Option MinioHealthInfo
  | .jobj fs => do
      let info ← fieldD fs "info" readStr ""
      let err ← fieldD fs "error" readStr ""
      pure ⟨info, err⟩
  | _ => none

def decLatency : JValue → Option Latency
  | .jobj fs => do
      let a1 ← fieldD fs "avg" readFlt .zero
      let a2 ← fieldD fs "max" readFlt .zero
      let a3 ← fieldD fs "min" readFlt .zero
      let a4 ← fieldD fs "percentile_50" readFlt .zero
      let a5 ← fieldD fs "percentile_90" readFlt .zero
      let a6 ← fieldD fs "percentile_99" readFlt .zero
      pure ⟨a1, a2, a3, a4, a5, a6⟩
  | _ => none

def decThroughput : JValue → Option Throughput
  | .jobj fs => do
      let a1 ← fieldD fs "avg" readNat 0
      let a2 ← fieldD fs "max" readNat 0
      let a3 ← fieldD fs "min" readNat 0
      let a4 ← fieldD fs "percentile_50" readNat 0
      let a5 ← fieldD fs "percentile_90" readNat 0
      let a6 ← fieldD fs "percentile_99" readNat 0
      pure ⟨a1, a2, a3, a4, a5, a6⟩
  | _ => none

def decDrivePerfInfo : JValue → Option DrivePerfInfo
  | .jobj fs => do
      let err ← fieldD fs "error" readStr ""
      let path ← fieldD fs "path" readStr ""
      let lat ← fieldD fs "latency" decLatency .zero
      let thr ← fieldD fs "throughput" decThroughput .zero
      pure ⟨err, path, lat, thr⟩
  | _ => none

def decDrivePerfInfos : JValue → Option DrivePerfInfos
  | .jobj fs => do
      let node ← decNodeCommonFields fs
      let sp ← fieldD fs "serial_perf" (readList decDrivePerfInfo) []
      let pp ← fieldD fs "parallel_perf" (readList decDrivePerfInfo) []
      pure ⟨node, sp, pp⟩
  | _ => none

def decPeerNetPerfInfo : JValue → Option PeerNetPerfInfo
  | .jobj fs => do
      let node ← decNodeCommonFields fs
      let lat ← fieldD fs "latency" decLatency .zero
      let thr ← fieldD fs "throughput" decThroughput .zero
      pure ⟨node, lat, thr⟩
  | _ => none

def decNetPerfInfo : JValue → Option NetPerfInfo
  | .jobj fs => do
      let node ← decNodeCommonFields fs
      let rp ← fieldD fs "remote_peers" (readList decPeerNetPerfInfo) []
      pure ⟨node, rp⟩
  | _ => none

def decPerfInfo : JValue → Option PerfInfo
  | .jobj fs => do
      let ds ← fieldD fs "drives" (readList decDrivePerfInfos) []
      let ns ← fieldD fs "net" (readList decNetPerfInfo) []
      let np ← fieldD fs "net_parallel" decNetPerfInfo .zero
      pure ⟨ds, ns, np⟩
  | _ => none

def decHealthInfoV2 : JValue → Option HealthInfoV2
  | .jobj fs => do
      let ver ← fieldD fs "version" readStr ""
      let err ← fieldD fs "error" readStr ""
      let ts ← fieldD fs "timestamp" readTime .zero
      let sys ← fieldD fs "sys" decSysInfo .zero
      let perf ← fieldD fs "perf" decPerfInfo .zero
      let minio ← fieldD fs "minio" decMinioHealthInfo .zero
      pure ⟨ver, err, ts, sys, perf, minio⟩
  | _ => none

def decServerCPUInfo : JValue → Option ServerCPUInfo
  | .jobj fs => do
      let addr ← fieldD fs "addr" readStr ""
      let err ← fieldD fs "error" readStr ""
      pure ⟨addr, err⟩
  | _ => none

def decServerDiskHwInfo : JValue → Option ServerDiskHwInfo
  | .jobj fs => do
      let addr ← fieldD fs "addr" readStr ""
      let err ← fieldD fs "error" readStr ""
      pure ⟨addr, err⟩
  | _ => none

def decServerOsInfo : JValue → Option ServerOsInfo
  | .jobj fs => do
      let addr ← fieldD fs "addr" readStr ""
      let err ← fieldD fs "error" readStr ""
      pure ⟨addr, err⟩
  | _ => none

def decServerMemInfo : JValue → Option ServerMemInfo
  | .jobj fs => do
      let addr ← fieldD fs "addr" readStr ""
      let err ← fieldD fs "error" readStr ""
      pure ⟨addr, err⟩
  | _ => none

/-- The process-record fields, decoded in four groups (the 22-field record is
    decoded field by field like every other struct; the grouping only keeps
    each decoding chain short). -/
def decSysProcessA (fs : List (String × JValue)) :
    Option (Int × Bool × GoFloat × List Int × String × Int) := do
  let pid ← fieldD fs "pid" readInt 0
  let bg ← fieldD fs "background" readBool false
  let cpu ← fieldD fs "cpupercent" readFlt .zero
  let ch ← fieldD fs "children" (readList readInt) []
  let cmd ← fieldD fs "cmd" readStr ""
  let cc ← fieldD fs "connection_count" readInt 0
  pure (pid, bg, cpu, ch, cmd, cc)

def decSysProcessB (fs : List (String × JValue)) :
    Option (Int × String × String × List Int × Bool × GoFloat) := do
  let ct ← fieldD fs "createtime" readInt 0
  let cwd ← fieldD fs "cwd" readStr ""
  let exe ← fieldD fs "exe" readStr ""
  let gids ← fieldD fs "gids" (readList readInt) []
  let ir ← fieldD fs "isrunning" readBool false
  let mem ← fieldD fs "mempercent" readFlt .zero
  pure (ct, cwd, exe, gids, ir, mem)

def decSysProcessC (fs : List (String × JValue)) :
    Option (String × Int × Int × Int × Int × Int) := do
  let nm ← fieldD fs "name" readStr ""
  let nice ← fieldD fs "nice" readInt 0
  let nfds ← fieldD fs "numfds" readInt 0
  let nth ← fieldD fs "numthreads" readInt 0
  let par ← fieldD fs "parent" readInt 0
  let ppid ← fieldD fs "ppid" readInt 0
  pure (nm, nice, nfds, nth, par, ppid)

def decSysProcessD (fs : List (String × JValue)) :
    Option (String × Int × List Int × String) := do
  let st ← fieldD fs "status" readStr ""
  let tgid ← fieldD fs "tgid" readInt 0
  let uids ← fieldD fs "uids" (readList readInt) []
  let un ← fieldD fs "username" readStr ""
  pure (st, tgid, uids, un)

def decSysProcessFields (fs : List (String × JValue)) : Option SysProcess := do
  let ⟨pid, bg, cpu, ch, cmd, cc⟩ ← decSysProcessA fs
  let ⟨ct, cwd, exe, gids, ir, mem⟩ ← decSysProcessB fs
  let ⟨nm, nice, nfds, nth, par, ppid⟩ ← decSysProcessC fs
  let ⟨st, tgid, uids, un⟩ ← decSysProcessD fs
  pure ⟨pid, bg, cpu, ch, cmd, cc, ct, cwd, exe, gids, ir, mem, nm, nice, nfds,
        nth, par, ppid, st, tgid, uids, un⟩

def decSysProcess : JValue → Option SysProcess
  | .jobj fs => decSysProcessFields fs
  | _ => none

def decServerProcInfo : JValue → Option ServerProcInfo
  | .jobj fs => do
      let addr ← fieldD fs "addr" readStr ""
      let ps ← fieldD fs "processes" (readList decSysProcess) []
      let err ← fieldD fs "error" readStr ""
      pure ⟨addr, ps, err⟩
  | _ => none

def decSysHealthInfo : JValue → Option SysHealthInfo
  | .jobj fs => do
      let cpus ← fieldD fs "cpus" (readList decServerCPUInfo) []
      let drives ← fieldD fs "drives" (readList decServerDiskHwInfo) []
      let os ← fieldD fs "osinfos" (readList decServerOsInfo) []
      let mems ← fieldD fs "meminfos" (readList decServerMemInfo) []
      let procs ← fieldD fs "procinfos" (readList decServerProcInfo) []
      let err ← fieldD fs "error" readStr ""
      pure ⟨cpus, drives, os, mems, procs, err⟩
  | _ => none

def decHealthInfoV0 : JValue → Option HealthInfoV0
  | .jobj fs => do
      let ts ← fieldD fs "timestamp" readTime .zero
      let err ← fieldD fs "error" readStr ""
      let sys ← fieldD fs "sys" decSysHealthInfo .zero
      pure ⟨ts, err, sys⟩
  | _ => none

/-! ## Round trip: decode after encode

The lemmas below compute the keyed lookups on the field lists produced by
the encoders and feed them through fieldD. -/

def GoFloat.lexeme : GoFloat → List Char
  | .finite cs => cs
  | _ => []

theorem lookupF_nil (k : String) : lookupF k [] = none := rfl

theorem lookupF_append (k : String) (a b : List (String × JValue)) :
    lookupF k (a ++ b) = (lookupF k a).or (lookupF k b) := by
  induction a with
  | nil => simp [lookupF]
  | cons p rest ih =>
      obtain ⟨k2, v⟩ := p
      by_cases h : k2 = k <;> simp [lookupF, h, ih]

theorem lookupF_reqF (k k2 : String) (v : JValue) :
    lookupF k (reqF k2 v) = if k2 = k then some v else none := by
  by_cases h : k2 = k <;> simp [reqF, lookupF, h]

theorem lookupF_optStrF (k k2 s : String) :
    lookupF k (optStrF k2 s) =
      if k2 = k then (if s = "" then none else some (.jstr s)) else none := by
  by_cases hs : s = "" <;> by_cases h : k2 = k <;> simp [optStrF, lookupF, h, hs]

theorem lookupF_optIntF (k k2 : String) (n : Int) :
    lookupF k (optIntF k2 n) =
      if k2 = k then (if n = 0 then none else some (.jint n)) else none := by
  by_cases hn : n = 0 <;> by_cases h : k2 = k <;> simp [optIntF, lookupF, h, hn]

theorem lookupF_optBoolF (k k2 : String) (b : Bool) :
    lookupF k (optBoolF k2 b) =
      if k2 = k then (if b then some (.jbool b) else none) else none := by
  cases b <;> by_cases h : k2 = k <;> simp [optBoolF, lookupF, h]

theorem lookupF_optListF (k k2 : String) (e : Bool) (xs : List JValue) :
    lookupF k (optListF k2 e xs) =
      if k2 = k then (if e then none else some (.jarr xs)) else none := by
  cases e <;> by_cases h : k2 = k <;> simp [optListF, lookupF, h]

theorem optFltF_finiteB {k : String} {f : GoFloat} {l : List (String × JValue)}
    (h : optFltF k f = some l) : f.finiteB = true := by
  unfold optFltF at h
  split at h
  · rename_i hz
    cases f with
    | finite cs => rfl
    | nan => simp [GoFloat.isZero] at hz
    | inf b => simp [GoFloat.isZero] at hz
  · cases f with
    | finite cs => rfl
    | nan => simp [encFlt] at h
    | inf b => simp [encFlt] at h

theorem lookupF_optFltF {k2 : String} {f : GoFloat} {l : List (String × JValue)}
    (h : optFltF k2 f = some l) (k : String) :
    lookupF k l =
      if k2 = k then (if f.isZero then none else some (.jflt f.lexeme)) else none := by
  unfold optFltF at h
  split at h
  · rename_i hz
    simp at h
    subst h
    simp [lookupF, hz]
  · rename_i hz
    cases f with
    | finite cs =>
        simp [encFlt] at h
        subst h
        by_cases hk : k2 = k <;> simp [lookupF, hk, hz, GoFloat.lexeme]
    | nan => simp [encFlt] at h
    | inf b => simp [encFlt] at h

theorem fieldD_of_lookup_none {a : Type} {fs : List (String × JValue)} {k : String}
    (r : JValue → Option a) (d : a) (h : lookupF k fs = none) :
    fieldD fs k r d = some d := by
  unfold fieldD
  rw [h]

theorem fieldD_of_lookup_some {a : Type} {fs : List (String × JValue)} {k : String}
    {v : JValue} (r : JValue → Option a) (d : a) (h : lookupF k fs = some v) :
    fieldD fs k r d = r v := by
  unfold fieldD
  rw [h]

theorem fieldD_str {fs : List (String × JValue)} {k s : String}
    (h : lookupF k fs = if s = "" then none else some (.jstr s)) :
    fieldD fs k readStr "" = some s := by
  by_cases hs : s = ""
  · rw [if_pos hs] at h
    rw [fieldD_of_lookup_none _ _ h, hs]
  · rw [if_neg hs] at h
    rw [fieldD_of_lookup_some _ _ h]
    rfl

theorem fieldD_req {a : Type} {fs : List (String × JValue)} {k : String} {v : JValue}
    {r : JValue → Option a} {x : a} (d : a) (h : lookupF k fs = some v)
    (hr : r v = some x) : fieldD fs k r d = some x := by
  rw [fieldD_of_lookup_some _ _ h, hr]

theorem fieldD_int {fs : List (String × JValue)} {k : String} {n : Int}
    (h : lookupF k fs = if n = 0 then none else some (.jint n)) :
    fieldD fs k readInt 0 = some n := by
  by_cases hn : n = 0
  · rw [if_pos hn] at h
    rw [fieldD_of_lookup_none _ _ h, hn]
  · rw [if_neg hn] at h
    rw [fieldD_of_lookup_some _ _ h]
    rfl

theorem fieldD_bool {fs : List (String × JValue)} {k : String} {b : Bool}
    (h : lookupF k fs = if b then some (.jbool b) else none) :
    fieldD fs k readBool false = some b := by
  cases b with
  | false =>
      rw [if_neg (by simp)] at h
      rw [fieldD_of_lookup_none _ _ h]
  | true =>
      rw [if_pos rfl] at h
      rw [fieldD_of_lookup_some _ _ h]
      rfl

theorem fieldD_flt {fs : List (String × JValue)} {k : String} {f : GoFloat}
    (hnz : f ≠ .finite ['-', '0']) (hfin : f.finiteB = true)
    (h : lookupF k fs = if f.isZero then none else some (.jflt f.lexeme)) :
    fieldD fs k readFlt .zero = some f := by
  by_cases hz : f.isZero = true
  · rw [if_pos hz] at h
    rw [fieldD_of_lookup_none _ _ h]
    cases f with
    | finite cs =>
        simp [GoFloat.isZero] at hz
        rcases hz with h0 | h0
        · subst h0
          rfl
        · exact absurd (by rw [h0]) hnz
    | nan => simp [GoFloat.finiteB] at hfin
    | inf b => simp [GoFloat.finiteB] at hfin
  · rw [if_neg hz] at h
    rw [fieldD_of_lookup_some _ _ h]
    cases f with
    | finite cs => rfl
    | nan => simp [GoFloat.finiteB] at hfin
    | inf b => simp [GoFloat.finiteB] at hfin

theorem fieldD_list {a : Type} {fs : List (String × JValue)} {k : String}
    {r : JValue → Option a} {xs : List a} {y : List JValue}
    (h : lookupF k fs = if xs.isEmpty then none else some (.jarr y))
    (hd : decList r y = some xs) : fieldD fs k (readList r) [] = some xs := by
  by_cases he : xs.isEmpty = true
  · rw [if_pos he] at h
    rw [fieldD_of_lookup_none _ _ h]
    simp [List.isEmpty_iff] at he
    rw [he]
  · rw [if_neg he] at h
    rw [fieldD_of_lookup_some _ _ h]
    exact hd

theorem decList_map {a : Type} {dec : JValue → Option a} {enc : a → JValue}
    {xs : List a} (hre : ∀ x ∈ xs, dec (enc x) = some x) :
    decList dec (xs.map enc) = some xs := by
  induction xs with
  | nil => rfl
  | cons x rest ih =>
      simp only [List.map_cons, decList]
      rw [hre x (by simp), ih (fun y hy => hre y (by simp [hy]))]
      rfl

theorem decList_encList {a : Type} {enc : a → Option JValue} {dec : JValue → Option a}
    {xs : List a} : ∀ {ys : List JValue}, encList enc xs = some ys →
    (∀ x ∈ xs, ∀ v, enc x = some v → dec v = some x) →
    decList dec ys = some xs := by
  induction xs with
  | nil =>
      intro ys h _
      simp [encList] at h
      subst h
      rfl
  | cons x rest ih =>
      intro ys h hre
      unfold encList at h
      simp only [bind, Option.bind_eq_some] at h
      obtain ⟨v, hv, vs, hvs, hys⟩ := h
      simp only [pure, Option.some.injEq] at hys
      subst hys
      simp only [decList]
      rw [hre x (by simp) v hv, ih hvs (fun y hy => hre y (by simp [hy]))]
      rfl

theorem encTime_inv {t : GoTime} {v : JValue} (h : encTime t = some v) :
    v = .jtime t := by
  unfold encTime at h
  split at h
  · exact (Option.some.injEq _ _ ▸ h).symm
  · simp at h

theorem encFlt_inv {f : GoFloat} {v : JValue} (h : encFlt f = some v) :
    v = .jflt f.lexeme ∧ f.finiteB = true := by
  cases f with
  | finite cs =>
      simp [encFlt] at h
      subst h
      exact ⟨rfl, rfl⟩
  | nan => simp [encFlt] at h
  | inf b => simp [encFlt] at h

theorem GoFloat.finite_lexeme {f : GoFloat} (h : f.finiteB = true) :
    GoFloat.finite f.lexeme = f := by
  cases f with
  | finite cs => rfl
  | nan => simp [GoFloat.finiteB] at h
  | inf b => simp [GoFloat.finiteB] at h

theorem readNat_coe (n : Nat) : readNat (.jint (n : Int)) = some n := by
  simp [readNat]

theorem dec_enc_NodeCommonFields {n : NodeCommon} {t : List (String × JValue)}
    (h1 : lookupF "addr" t = none) (h2 : lookupF "error" t = none) :
    decNodeCommonFields (nodeCommonFields n ++ t) = some n := by
  have ha : lookupF "addr" (nodeCommonFields n ++ t) = some (.jstr n.Addr) := by
    simp [nodeCommonFields, lookupF_append, lookupF_reqF, lookupF_optStrF, h1]
  have he : lookupF "error" (nodeCommonFields n ++ t) =
      if n.Error = "" then none else some (.jstr n.Error) := by
    simp [nodeCommonFields, lookupF_append, lookupF_reqF, lookupF_optStrF, h2]
  unfold decNodeCommonFields
  rw [fieldD_req "" ha rfl, fieldD_str he]
  rfl

theorem dec_enc_NodeCommon (n : NodeCommon) :
    decNodeCommon (encNodeCommon n) = some n := by
  show decNodeCommonFields (nodeCommonFields n) = some n
  rw [← List.append_nil (nodeCommonFields n)]
  exact dec_enc_NodeCommonFields rfl rfl

theorem dec_enc_SysInfo (s : SysInfo) : decSysInfo (encSysInfo s) = some s := by
  have hn : lookupF "nodes" (optListF "nodes" s.Nodes.isEmpty (s.Nodes.map encNodeCommon)) =
      if s.Nodes.isEmpty then none else some (.jarr (s.Nodes.map encNodeCommon)) := by
    simp [lookupF_optListF]
  show decSysInfo (.jobj _) = some s
  simp only [decSysInfo]
  rw [fieldD_list hn (decList_map (fun x _ => dec_enc_NodeCommon x))]
  rfl

theorem dec_enc_MinioHealthInfo (m : MinioHealthInfo) :
    decMinioHealthInfo (encMinioHealthInfo m) = some m := by
  have hi : lookupF "info" (optStrF "info" m.Info ++ optStrF "error" m.Error) =
      if m.Info = "" then none else some (.jstr m.Info) := by
    simp [lookupF_append, lookupF_optStrF]
  have he : lookupF "error" (optStrF "info" m.Info ++ optStrF "error" m.Error) =
      if m.Error = "" then none else some (.jstr m.Error) := by
    simp [lookupF_append, lookupF_optStrF]
  show decMinioHealthInfo (.jobj _) = some m
  simp only [decMinioHealthInfo]
  rw [fieldD_str hi, fieldD_str he]
  rfl

theorem dec_enc_Latency {l : Latency} {m : JValue} (h : encLatency l = some m) :
    decLatency m = some l := by
  unfold encLatency at h
  simp only [bind, Option.bind_eq_some] at h
  obtain ⟨v1, hv1, v2, hv2, v3, hv3, v4, hv4, v5, hv5, v6, hv6, hm⟩ := h
  simp only [pure, Option.some.injEq] at hm
  subst hm
  obtain ⟨e1, f1⟩ := encFlt_inv hv1
  obtain ⟨e2, f2⟩ := encFlt_inv hv2
  obtain ⟨e3, f3⟩ := encFlt_inv hv3
  obtain ⟨e4, f4⟩ := encFlt_inv hv4
  obtain ⟨e5, f5⟩ := encFlt_inv hv5
  obtain ⟨e6, f6⟩ := encFlt_inv hv6
  subst e1 e2 e3 e4 e5 e6
  simp only [decLatency]
  have r1 : readFlt (.jflt l.Avg.lexeme) = some l.Avg := by
    simp [readFlt, GoFloat.finite_lexeme f1]
  have r2 : readFlt (.jflt l.Max.lexeme) = some l.Max := by
    simp [readFlt, GoFloat.finite_lexeme f2]
  have r3 : readFlt (.jflt l.Min.lexeme) = some l.Min := by
    simp [readFlt, GoFloat.finite_lexeme f3]
  have r4 : readFlt (.jflt l.Percentile50.lexeme) = some l.Percentile50 := by
    simp [readFlt, GoFloat.finite_lexeme f4]
  have r5 : readFlt (.jflt l.Percentile90.lexeme) = some l.Percentile90 := by
    simp [readFlt, GoFloat.finite_lexeme f5]
  have r6 : readFlt (.jflt l.Percentile99.lexeme) = some l.Percentile99 := by
    simp [readFlt, GoFloat.finite_lexeme f6]
  rw [fieldD_req GoFloat.zero (by simp [lookupF_append, lookupF_reqF]) r1,
      fieldD_req GoFloat.zero (by simp [lookupF_append, lookupF_reqF]) r2,
      fieldD_req GoFloat.zero (by simp [lookupF_append, lookupF_reqF]) r3,
      fieldD_req GoFloat.zero (by simp [lookupF_append, lookupF_reqF]) r4,
      fieldD_req GoFloat.zero (by simp [lookupF_append, lookupF_reqF]) r5,
      fieldD_req GoFloat.zero (by simp [lookupF_append, lookupF_reqF]) r6]
  rfl

theorem dec_enc_Throughput (t : Throughput) :
    decThroughput (encThroughput t) = some t := by
  show decThroughput (.jobj _) = some t
  simp only [decThroughput]
  rw [fieldD_req 0 (by simp [encThroughput, lookupF_append, lookupF_reqF]) (readNat_coe t.Avg),
      fieldD_req 0 (by simp [encThroughput, lookupF_append, lookupF_reqF]) (readNat_coe t.Max),
      fieldD_req 0 (by simp [encThroughput, lookupF_append, lookupF_reqF]) (readNat_coe t.Min),
      fieldD_req 0 (by simp [encThroughput, lookupF_append, lookupF_reqF]) (readNat_coe t.Percentile50),
      fieldD_req 0 (by simp [encThroughput, lookupF_append, lookupF_reqF]) (readNat_coe t.Percentile90),
      fieldD_req 0 (by simp [encThroughput, lookupF_append, lookupF_reqF]) (readNat_coe t.Percentile99)]
  rfl

theorem dec_enc_DrivePerfInfo {d : DrivePerfInfo} {m : JValue}
    (h : encDrivePerfInfo d = some m) : decDrivePerfInfo m = some d := by
  unfold encDrivePerfInfo at h
  simp only [bind, Option.bind_eq_some] at h
  obtain ⟨lat, hlat, hm⟩ := h
  simp only [pure, Option.some.injEq] at hm
  subst hm
  simp only [decDrivePerfInfo]
  rw [fieldD_str (s := d.Error) (by simp [lookupF_append, lookupF_optStrF, lookupF_reqF]),
      fieldD_req "" (v := .jstr d.Path)
        (by simp [lookupF_append, lookupF_optStrF, lookupF_reqF]) rfl,
      fieldD_req Latency.zero (v := lat)
        (by simp [lookupF_append, lookupF_optStrF, lookupF_reqF]) (dec_enc_Latency hlat),
      fieldD_req Throughput.zero (v := encThroughput d.Throughput)
        (by simp [lookupF_append, lookupF_optStrF, lookupF_reqF]) (dec_enc_Throughput d.Throughput)]
  rfl

theorem dec_enc_DrivePerfInfos {d : DrivePerfInfos} {m : JValue}
    (h : encDrivePerfInfos d = some m) : decDrivePerfInfos m = some d := by
  unfold encDrivePerfInfos at h
  simp only [bind, Option.bind_eq_some] at h
  obtain ⟨sp, hsp, pp, hpp, hm⟩ := h
  simp only [pure, Option.some.injEq] at hm
  subst hm
  simp only [decDrivePerfInfos]
  simp only [List.append_assoc]
  rw [dec_enc_NodeCommonFields
        (t := optListF "serial_perf" d.SerialPerf.isEmpty sp ++
          optListF "parallel_perf" d.ParallelPerf.isEmpty pp)
        (by simp [lookupF_append, lookupF_optListF])
        (by simp [lookupF_append, lookupF_optListF]),
      fieldD_list (y := sp)
        (by simp [nodeCommonFields, lookupF_append, lookupF_reqF, lookupF_optStrF, lookupF_optListF])
        (decList_encList hsp (fun x _ v hv => dec_enc_DrivePerfInfo hv)),
      fieldD_list (y := pp)
        (by simp [nodeCommonFields, lookupF_append, lookupF_reqF, lookupF_optStrF, lookupF_optListF])
        (decList_encList hpp (fun x _ v hv => dec_enc_DrivePerfInfo hv))]
  rfl

theorem dec_enc_PeerNetPerfInfo {p : PeerNetPerfInfo} {m : JValue}
    (h : encPeerNetPerfInfo p = some m) : decPeerNetPerfInfo m = some p := by
  unfold encPeerNetPerfInfo at h
  simp only [bind, Option.bind_eq_some] at h
  obtain ⟨lat, hlat, hm⟩ := h
  simp only [pure, Option.some.injEq] at hm
  subst hm
  simp only [decPeerNetPerfInfo]
  simp only [List.append_assoc]
  rw [dec_enc_NodeCommonFields
        (t := reqF "latency" lat ++ reqF "throughput" (encThroughput p.Throughput))
        (by simp [lookupF_append, lookupF_reqF])
        (by simp [lookupF_append, lookupF_reqF]),
      fieldD_req Latency.zero (v := lat)
        (by simp [nodeCommonFields, lookupF_append, lookupF_reqF, lookupF_optStrF])
        (dec_enc_Latency hlat),
      fieldD_req Throughput.zero (v := encThroughput p.Throughput)
        (by simp [nodeCommonFields, lookupF_append, lookupF_reqF, lookupF_optStrF])
        (dec_enc_Throughput p.Throughput)]
  rfl

theorem dec_enc_NetPerfInfo {n : NetPerfInfo} {m : JValue}
    (h : encNetPerfInfo n = some m) : decNetPerfInfo m = some n := by
  unfold encNetPerfInfo at h
  simp only [bind, Option.bind_eq_some] at h
  obtain ⟨rp, hrp, hm⟩ := h
  simp only [pure, Option.some.injEq] at hm
  subst hm
  simp only [decNetPerfInfo]
  rw [dec_enc_NodeCommonFields
        (t := optListF "remote_peers" n.RemotePeers.isEmpty rp)
        (by simp [lookupF_append, lookupF_optListF])
        (by simp [lookupF_append, lookupF_optListF]),
      fieldD_list (y := rp)
        (by simp [nodeCommonFields, lookupF_append, lookupF_reqF, lookupF_optStrF, lookupF_optListF])
        (decList_encList hrp (fun x _ v hv => dec_enc_PeerNetPerfInfo hv))]
  rfl

theorem dec_enc_PerfInfo {p : PerfInfo} {m : JValue}
    (h : encPerfInfo p = some m) : decPerfInfo m = some p := by
  unfold encPerfInfo at h
  simp only [bind, Option.bind_eq_some] at h
  obtain ⟨ds, hds, ns, hns, np, hnp, hm⟩ := h
  simp only [pure, Option.some.injEq] at hm
  subst hm
  simp only [decPerfInfo]
  rw [fieldD_list (y := ds)
        (by simp [lookupF_append, lookupF_optListF, lookupF_reqF])
        (decList_encList hds (fun x _ v hv => dec_enc_DrivePerfInfos hv)),
      fieldD_list (y := ns)
        (by simp [lookupF_append, lookupF_optListF, lookupF_reqF])
        (decList_encList hns (fun x _ v hv => dec_enc_NetPerfInfo hv)),
      fieldD_req NetPerfInfo.zero (v := np)
        (by simp [lookupF_append, lookupF_optListF, lookupF_reqF])
        (dec_enc_NetPerfInfo hnp)]
  rfl

theorem dec_enc_HealthInfoV2 {x : HealthInfoV2} {m : JValue}
    (h : encHealthInfoV2 x = some m) : decHealthInfoV2 m = some x := by
  unfold encHealthInfoV2 at h
  simp only [bind, Option.bind_eq_some] at h
  obtain ⟨ts, hts, perf, hperf, hm⟩ := h
  simp only [pure, Option.some.injEq] at hm
  subst hm
  have et := encTime_inv hts
  subst et
  simp only [decHealthInfoV2]
  rw [fieldD_req "" (v := .jstr x.Version)
        (by simp [lookupF_append, lookupF_reqF, lookupF_optStrF]) rfl,
      fieldD_str (s := x.Error) (by simp [lookupF_append, lookupF_reqF, lookupF_optStrF]),
      fieldD_req GoTime.zero (v := .jtime x.TimeStamp)
        (by simp [lookupF_append, lookupF_reqF, lookupF_optStrF]) rfl,
      fieldD_req SysInfo.zero (v := encSysInfo x.Sys)
        (by simp [lookupF_append, lookupF_reqF, lookupF_optStrF]) (dec_enc_SysInfo x.Sys),
      fieldD_req PerfInfo.zero (v := perf)
        (by simp [lookupF_append, lookupF_reqF, lookupF_optStrF]) (dec_enc_PerfInfo hperf),
      fieldD_req MinioHealthInfo.zero (v := encMinioHealthInfo x.Minio)
        (by simp [lookupF_append, lookupF_reqF, lookupF_optStrF])
        (dec_enc_MinioHealthInfo x.Minio)]
  rfl

/-! ## The one Go-level caveat of the round trip

A float field tagged omitempty whose value is negative zero is omitted
(-0.0 == 0 in Go) and decodes as +0.0; Go itself calls the two equal
(float ==), but the bit patterns differ.  The rtOK predicates exclude
negative zero in the two omitempty float fields (SysProcess.CPUPercent and
SysProcess.MemPercent); all other floats sit in non-omitempty fields. -/

def SysProcess.rtOK (p : SysProcess) : Bool :=
  p.CPUPercent ≠ GoFloat.finite ['-', '0'] && p.MemPercent ≠ GoFloat.finite ['-', '0']

def ServerProcInfo.rtOK (c : ServerProcInfo) : Bool := c.Processes.all SysProcess.rtOK

def SysHealthInfo.rtOK (c : SysHealthInfo) : Bool := c.ProcInfo.all ServerProcInfo.rtOK

def HealthInfoV0.rtOK (x : HealthInfoV0) : Bool := x.Sys.rtOK

theorem dec_enc_ServerCPUInfo (c : ServerCPUInfo) :
    decServerCPUInfo (encServerCPUInfo c) = some c := by
  show decServerCPUInfo (.jobj _) = some c
  simp only [decServerCPUInfo]
  rw [fieldD_req "" (v := .jstr c.Addr)
        (by simp [encServerCPUInfo, lookupF_append, lookupF_reqF, lookupF_optStrF]) rfl,
      fieldD_str (s := c.Error)
        (by simp [encServerCPUInfo, lookupF_append, lookupF_reqF, lookupF_optStrF])]
  rfl

theorem dec_enc_ServerDiskHwInfo (c : ServerDiskHwInfo) :
    decServerDiskHwInfo (encServerDiskHwInfo c) = some c := by
  show decServerDiskHwInfo (.jobj _) = some c
  simp only [decServerDiskHwInfo]
  rw [fieldD_req "" (v := .jstr c.Addr)
        (by simp [encServerDiskHwInfo, lookupF_append, lookupF_reqF, lookupF_optStrF]) rfl,
      fieldD_str (s := c.Error)
        (by simp [encServerDiskHwInfo, lookupF_append, lookupF_reqF, lookupF_optStrF])]
  rfl

theorem dec_enc_ServerOsInfo (c : ServerOsInfo) :
    decServerOsInfo (encServerOsInfo c) = some c := by
  show decServerOsInfo (.jobj _) = some c
  simp only [decServerOsInfo]
  rw [fieldD_req "" (v := .jstr c.Addr)
        (by simp [encServerOsInfo, lookupF_append, lookupF_reqF, lookupF_optStrF]) rfl,
      fieldD_str (s := c.Error)
        (by simp [encServerOsInfo, lookupF_append, lookupF_reqF, lookupF_optStrF])]
  rfl

theorem dec_enc_ServerMemInfo (c : ServerMemInfo) :
    decServerMemInfo (encServerMemInfo c) = some c := by
  show decServerMemInfo (.jobj _) = some c
  simp only [decServerMemInfo]
  rw [fieldD_req "" (v := .jstr c.Addr)
        (by simp [encServerMemInfo, lookupF_append, lookupF_reqF, lookupF_optStrF]) rfl,
      fieldD_str (s := c.Error)
        (by simp [encServerMemInfo, lookupF_append, lookupF_reqF, lookupF_optStrF])]
  rfl

theorem dec_enc_SysProcess {p : SysProcess} {m : JValue}
    (hc1 : p.CPUPercent ≠ .finite ['-', '0']) (hc2 : p.MemPercent ≠ .finite ['-', '0'])
    (h : encSysProcess p = some m) : decSysProcess m = some p := by
  unfold encSysProcess at h
  simp only [bind, Option.bind_eq_some] at h
  obtain ⟨vc, hvc, vm, hvm, hm⟩ := h
  simp only [pure, Option.some.injEq] at hm
  subst hm
  have hA : decSysProcessA
      (reqF "pid" (.jint p.Pid) ++ optBoolF "background" p.Background ++ vc ++
        optListF "children" p.Children.isEmpty (p.Children.map .jint) ++
        optStrF "cmd" p.CmdLine ++ optIntF "connection_count" p.ConnectionCount ++
        optIntF "createtime" p.CreateTime ++ optStrF "cwd" p.Cwd ++
        optStrF "exe" p.Exe ++ optListF "gids" p.Gids.isEmpty (p.Gids.map .jint) ++
        optBoolF "isrunning" p.IsRunning ++ vm ++ optStrF "name" p.Name ++
        optIntF "nice" p.Nice ++ optIntF "numfds" p.NumFds ++
        optIntF "numthreads" p.NumThreads ++ optIntF "parent" p.Parent ++
        optIntF "ppid" p.Ppid ++ optStrF "status" p.Status ++ optIntF "tgid" p.Tgid ++
        optListF "uids" p.Uids.isEmpty (p.Uids.map .jint) ++
        optStrF "username" p.Username) =
      some (p.Pid, p.Background, p.CPUPercent, p.Children, p.CmdLine, p.ConnectionCount) := by
    unfold decSysProcessA
    rw [fieldD_req (r := readInt) 0 (v := .jint p.Pid)
          (by simp [lookupF_append, lookupF_reqF, lookupF_optStrF, lookupF_optIntF,
            lookupF_optBoolF, lookupF_optListF, lookupF_optFltF hvc, lookupF_optFltF hvm]) rfl,
        fieldD_bool (b := p.Background)
          (by simp [lookupF_append, lookupF_reqF, lookupF_optStrF, lookupF_optIntF,
            lookupF_optBoolF, lookupF_optListF, lookupF_optFltF hvc, lookupF_optFltF hvm]),
        fieldD_flt hc1 (optFltF_finiteB hvc)
          (by simp [lookupF_append, lookupF_reqF, lookupF_optStrF, lookupF_optIntF,
            lookupF_optBoolF, lookupF_optListF, lookupF_optFltF hvc, lookupF_optFltF hvm]),
        fieldD_list (y := p.Children.map .jint)
          (by simp [lookupF_append, lookupF_reqF, lookupF_optStrF, lookupF_optIntF,
            lookupF_optBoolF, lookupF_optListF, lookupF_optFltF hvc, lookupF_optFltF hvm])
          (decList_map (fun x _ => rfl)),
        fieldD_str (s := p.CmdLine)
          (by simp [lookupF_append, lookupF_reqF, lookupF_optStrF, lookupF_optIntF,
            lookupF_optBoolF, lookupF_optListF, lookupF_optFltF hvc, lookupF_optFltF hvm]),
        fieldD_int (n := p.ConnectionCount)
          (by simp [lookupF_append, lookupF_reqF, lookupF_optStrF, lookupF_optIntF,
            lookupF_optBoolF, lookupF_optListF, lookupF_optFltF hvc, lookupF_optFltF hvm])]
    rfl
  have hB : decSysProcessB
      (reqF "pid" (.jint p.Pid) ++ optBoolF "background" p.Background ++ vc ++
        optListF "children" p.Children.isEmpty (p.Children.map .jint) ++
        optStrF "cmd" p.CmdLine ++ optIntF "connection_count" p.ConnectionCount ++
        optIntF "createtime" p.CreateTime ++ optStrF "cwd" p.Cwd ++
        optStrF "exe" p.Exe ++ optListF "gids" p.Gids.isEmpty (p.Gids.map .jint) ++
        optBoolF "isrunning" p.IsRunning ++ vm ++ optStrF "name" p.Name ++
        optIntF "nice" p.Nice ++ optIntF "numfds" p.NumFds ++
        optIntF "numthreads" p.NumThreads ++ optIntF "parent" p.Parent ++
        optIntF "ppid" p.Ppid ++ optStrF "status" p.Status ++ optIntF "tgid" p.Tgid ++
        optListF "uids" p.Uids.isEmpty (p.Uids.map .jint) ++
        optStrF "username" p.Username) =
      some (p.CreateTime, p.Cwd, p.Exe, p.Gids, p.IsRunning, p.MemPercent) := by
    unfold decSysProcessB
    rw [fieldD_int (n := p.CreateTime)
          (by simp [lookupF_append, lookupF_reqF, lookupF_optStrF, lookupF_optIntF,
            lookupF_optBoolF, lookupF_optListF, lookupF_optFltF hvc, lookupF_optFltF hvm]),
        fieldD_str (s := p.Cwd)
          (by simp [lookupF_append, lookupF_reqF, lookupF_optStrF, lookupF_optIntF,
            lookupF_optBoolF, lookupF_optListF, lookupF_optFltF hvc, lookupF_optFltF hvm]),
        fieldD_str (s := p.Exe)
          (by simp [lookupF_append, lookupF_reqF, lookupF_optStrF, lookupF_optIntF,
            lookupF_optBoolF, lookupF_optListF, lookupF_optFltF hvc, lookupF_optFltF hvm]),
        fieldD_list (y := p.Gids.map .jint)
          (by simp [lookupF_append, lookupF_reqF, lookupF_optStrF, lookupF_optIntF,
            lookupF_optBoolF, lookupF_optListF, lookupF_optFltF hvc, lookupF_optFltF hvm])
          (decList_map (fun x _ => rfl)),
        fieldD_bool (b := p.IsRunning)
          (by simp [lookupF_append, lookupF_reqF, lookupF_optStrF, lookupF_optIntF,
            lookupF_optBoolF, lookupF_optListF, lookupF_optFltF hvc, lookupF_optFltF hvm]),
        fieldD_flt hc2 (optFltF_finiteB hvm)
          (by simp [lookupF_append, lookupF_reqF, lookupF_optStrF, lookupF_optIntF,
            lookupF_optBoolF, lookupF_optListF, lookupF_optFltF hvc, lookupF_optFltF hvm])]
    rfl
  have hC : decSysProcessC
      (reqF "pid" (.jint p.Pid) ++ optBoolF "background" p.Background ++ vc ++
        optListF "children" p.Children.isEmpty (p.Children.map .jint) ++
        optStrF "cmd" p.CmdLine ++ optIntF "connection_count" p.ConnectionCount ++
        optIntF "createtime" p.CreateTime ++ optStrF "cwd" p.Cwd ++
        optStrF "exe" p.Exe ++ optListF "gids" p.Gids.isEmpty (p.Gids.map .jint) ++
        optBoolF "isrunning" p.IsRunning ++ vm ++ optStrF "name" p.Name ++
        optIntF "nice" p.Nice ++ optIntF "numfds" p.NumFds ++
        optIntF "numthreads" p.NumThreads ++ optIntF "parent" p.Parent ++
        optIntF "ppid" p.Ppid ++ optStrF "status" p.Status ++ optIntF "tgid" p.Tgid ++
        optListF "uids" p.Uids.isEmpty (p.Uids.map .jint) ++
        optStrF "username" p.Username) =
      some (p.Name, p.Nice, p.NumFds, p.NumThreads, p.Parent, p.Ppid) := by
    unfold decSysProcessC
    rw [fieldD_str (s := p.Name)
          (by simp [lookupF_append, lookupF_reqF, lookupF_optStrF, lookupF_optIntF,
            lookupF_optBoolF, lookupF_optListF, lookupF_optFltF hvc, lookupF_optFltF hvm]),
        fieldD_int (n := p.Nice)
          (by simp [lookupF_append, lookupF_reqF, lookupF_optStrF, lookupF_optIntF,
            lookupF_optBoolF, lookupF_optListF, lookupF_optFltF hvc, lookupF_optFltF hvm]),
        fieldD_int (n := p.NumFds)
          (by simp [lookupF_append, lookupF_reqF, lookupF_optStrF, lookupF_optIntF,
            lookupF_optBoolF, lookupF_optListF, lookupF_optFltF hvc, lookupF_optFltF hvm]),
        fieldD_int (n := p.NumThreads)
          (by simp [lookupF_append, lookupF_reqF, lookupF_optStrF, lookupF_optIntF,
            lookupF_optBoolF, lookupF_optListF, lookupF_optFltF hvc, lookupF_optFltF hvm]),
        fieldD_int (n := p.Parent)
          (by simp [lookupF_append, lookupF_reqF, lookupF_optStrF, lookupF_optIntF,
            lookupF_optBoolF, lookupF_optListF, lookupF_optFltF hvc, lookupF_optFltF hvm]),
        fieldD_int (n := p.Ppid)
          (by simp [lookupF_append, lookupF_reqF, lookupF_optStrF, lookupF_optIntF,
            lookupF_optBoolF, lookupF_optListF, lookupF_optFltF hvc, lookupF_optFltF hvm])]
    rfl
  have hD : decSysProcessD
      (reqF "pid" (.jint p.Pid) ++ optBoolF "background" p.Background ++ vc ++
        optListF "children" p.Children.isEmpty (p.Children.map .jint) ++
        optStrF "cmd" p.CmdLine ++ optIntF "connection_count" p.ConnectionCount ++
        optIntF "createtime" p.CreateTime ++ optStrF "cwd" p.Cwd ++
        optStrF "exe" p.Exe ++ optListF "gids" p.Gids.isEmpty (p.Gids.map .jint) ++
        optBoolF "isrunning" p.IsRunning ++ vm ++ optStrF "name" p.Name ++
        optIntF "nice" p.Nice ++ optIntF "numfds" p.NumFds ++
        optIntF "numthreads" p.NumThreads ++ optIntF "parent" p.Parent ++
        optIntF "ppid" p.Ppid ++ optStrF "status" p.Status ++ optIntF "tgid" p.Tgid ++
        optListF "uids" p.Uids.isEmpty (p.Uids.map .jint) ++
        optStrF "username" p.Username) =
      some (p.Status, p.Tgid, p.Uids, p.Username) := by
    unfold decSysProcessD
    rw [fieldD_str (s := p.Status)
          (by simp [lookupF_append, lookupF_reqF, lookupF_optStrF, lookupF_optIntF,
            lookupF_optBoolF, lookupF_optListF, lookupF_optFltF hvc, lookupF_optFltF hvm]),
        fieldD_int (n := p.Tgid)
          (by simp [lookupF_append, lookupF_reqF, lookupF_optStrF, lookupF_optIntF,
            lookupF_optBoolF, lookupF_optListF, lookupF_optFltF hvc, lookupF_optFltF hvm]),
        fieldD_list (y := p.Uids.map .jint)
          (by simp [lookupF_append, lookupF_reqF, lookupF_optStrF, lookupF_optIntF,
            lookupF_optBoolF, lookupF_optListF, lookupF_optFltF hvc, lookupF_optFltF hvm])
          (decList_map (fun x _ => rfl)),
        fieldD_str (s := p.Username)
          (by simp [lookupF_append, lookupF_reqF, lookupF_optStrF, lookupF_optIntF,
            lookupF_optBoolF, lookupF_optListF, lookupF_optFltF hvc, lookupF_optFltF hvm])]
    rfl
  show decSysProcessFields _ = some p
  unfold decSysProcessFields
  rw [hA, hB, hC, hD]
  rfl

theorem dec_enc_ServerProcInfo {c : ServerProcInfo} {m : JValue}
    (hrt : c.rtOK = true) (h : encServerProcInfo c = some m) :
    decServerProcInfo m = some c := by
  unfold encServerProcInfo at h
  simp only [bind, Option.bind_eq_some] at h
  obtain ⟨ps, hps, hm⟩ := h
  simp only [pure, Option.some.injEq] at hm
  subst hm
  simp only [ServerProcInfo.rtOK, List.all_eq_true, SysProcess.rtOK,
    Bool.and_eq_true, decide_eq_true_eq] at hrt
  simp only [decServerProcInfo]
  rw [fieldD_req "" (v := .jstr c.Addr)
        (by simp [lookupF_append, lookupF_reqF, lookupF_optStrF, lookupF_optListF]) rfl,
      fieldD_list (y := ps)
        (by simp [lookupF_append, lookupF_reqF, lookupF_optStrF, lookupF_optListF])
        (decList_encList hps
          (fun x hx v hv => dec_enc_SysProcess (hrt x hx).1 (hrt x hx).2 hv)),
      fieldD_str (s := c.Error)
        (by simp [lookupF_append, lookupF_reqF, lookupF_optStrF, lookupF_optListF])]
  rfl

theorem dec_enc_SysHealthInfo {c : SysHealthInfo} {m : JValue}
    (hrt : c.rtOK = true) (h : encSysHealthInfo c = some m) :
    decSysHealthInfo m = some c := by
  unfold encSysHealthInfo at h
  simp only [bind, Option.bind_eq_some] at h
  obtain ⟨pi, hpi, hm⟩ := h
  simp only [pure, Option.some.injEq] at hm
  subst hm
  simp only [SysHealthInfo.rtOK, List.all_eq_true] at hrt
  simp only [decSysHealthInfo]
  rw [fieldD_list (y := c.CPUInfo.map encServerCPUInfo)
        (by simp [lookupF_append, lookupF_optStrF, lookupF_optListF])
        (decList_map (fun x _ => dec_enc_ServerCPUInfo x)),
      fieldD_list (y := c.DiskHwInfo.map encServerDiskHwInfo)
        (by simp [lookupF_append, lookupF_optStrF, lookupF_optListF])
        (decList_map (fun x _ => dec_enc_ServerDiskHwInfo x)),
      fieldD_list (y := c.OsInfo.map encServerOsInfo)
        (by simp [lookupF_append, lookupF_optStrF, lookupF_optListF])
        (decList_map (fun x _ => dec_enc_ServerOsInfo x)),
      fieldD_list (y := c.MemInfo.map encServerMemInfo)
        (by simp [lookupF_append, lookupF_optStrF, lookupF_optListF])
        (decList_map (fun x _ => dec_enc_ServerMemInfo x)),
      fieldD_list (y := pi)
        (by simp [lookupF_append, lookupF_optStrF, lookupF_optListF])
        (decList_encList hpi (fun x hx v hv => dec_enc_ServerProcInfo (hrt x hx) hv)),
      fieldD_str (s := c.Error)
        (by simp [lookupF_append, lookupF_optStrF, lookupF_optListF])]
  rfl

theorem dec_enc_HealthInfoV0 {x : HealthInfoV0} {m : JValue}
    (hrt : x.rtOK = true) (h : encHealthInfoV0 x = some m) :
    decHealthInfoV0 m = some x := by
  unfold encHealthInfoV0 at h
  simp only [bind, Option.bind_eq_some] at h
  obtain ⟨ts, hts, sys, hsys, hm⟩ := h
  simp only [pure, Option.some.injEq] at hm
  subst hm
  have et := encTime_inv hts
  subst et
  simp only [decHealthInfoV0]
  rw [fieldD_req GoTime.zero (v := .jtime x.TimeStamp)
        (by simp [lookupF_append, lookupF_reqF, lookupF_optStrF]) rfl,
      fieldD_str (s := x.Error)
        (by simp [lookupF_append, lookupF_reqF, lookupF_optStrF]),
      fieldD_req SysHealthInfo.zero (v := sys)
        (by simp [lookupF_append, lookupF_reqF, lookupF_optStrF])
        (dec_enc_SysHealthInfo hrt hsys)]
  rfl

/-! ## Field order does not matter

Two documents are JEquiv when they differ only in the order of object
fields: atoms are equal, arrays agree pointwise, and objects have
duplicate-free keys with pointwise-equivalent lookups.  json.Unmarshal
resolves fields by name, so decoding is invariant under JEquiv. -/

inductive JEquiv : JValue → JValue → Prop where
  | jstr (s : String) : JEquiv (.jstr s) (.jstr s)
  | jint (n : Int) : JEquiv (.jint n) (.jint n)
  | jflt (cs : List Char) : JEquiv (.jflt cs) (.jflt cs)
  | jbool (b : Bool) : JEquiv (.jbool b) (.jbool b)
  | jtime (t : GoTime) : JEquiv (.jtime t) (.jtime t)
  | arrNil : JEquiv (.jarr []) (.jarr [])
  | arrCons {x y : JValue} {xs ys : List JValue} :
      JEquiv x y → JEquiv (.jarr xs) (.jarr ys) →
      JEquiv (.jarr (x :: xs)) (.jarr (y :: ys))
  | obj {fs gs : List (String × JValue)} :
      (fs.map Prod.fst).Nodup → (gs.map Prod.fst).Nodup →
      (∀ k, (lookupF k fs).isSome = (lookupF k gs).isSome) →
      (∀ k v w, lookupF k fs = some v → lookupF k gs = some w → JEquiv v w) →
      JEquiv (.jobj fs) (.jobj gs)

mutual

/-- Every object in the document has duplicate-free keys. -/
def keysOK : JValue → Bool
  | .jarr xs => keysOKList xs
  | .jobj fs => decide (fs.map Prod.fst).Nodup && keysOKFields fs
  | _ => true

def keysOKList : List JValue → Bool
  | [] => true
  | x :: xs => keysOK x && keysOKList xs

def keysOKFields : List (String × JValue) → Bool
  | [] => true
  | (_, v) :: fs => keysOK v && keysOKFields fs

end

theorem lookupF_sizeOf {k : String} :
    ∀ {fs : List (String × JValue)} {v : JValue},
      lookupF k fs = some v → sizeOf v < sizeOf fs := by
  intro fs
  induction fs with
  | nil => intro v h; simp [lookupF] at h
  | cons p rest ih =>
      obtain ⟨k2, w⟩ := p
      intro v h
      unfold lookupF at h
      split at h
      · injection h with hv
        subst hv
        simp only [List.cons.sizeOf_spec, Prod.mk.sizeOf_spec]
        omega
      · have := ih h
        simp only [List.cons.sizeOf_spec, Prod.mk.sizeOf_spec]
        omega

theorem keysOK_lookup {k : String} :
    ∀ {fs : List (String × JValue)} {v : JValue},
      lookupF k fs = some v → keysOKFields fs = true → keysOK v = true := by
  intro fs
  induction fs with
  | nil => intro v h _; simp [lookupF] at h
  | cons p rest ih =>
      obtain ⟨k2, w⟩ := p
      intro v h hok
      simp only [keysOKFields, Bool.and_eq_true] at hok
      unfold lookupF at h
      split at h
      · injection h with hv
        subst hv
        exact hok.1
      · exact ih h hok.2

theorem jequiv_refl : ∀ v : JValue, keysOK v = true → JEquiv v v
  | .jstr s, _ => .jstr s
  | .jint n, _ => .jint n
  | .jflt cs, _ => .jflt cs
  | .jbool b, _ => .jbool b
  | .jtime t, _ => .jtime t
  | .jarr [], _ => .arrNil
  | .jarr (x :: xs), h => by
      simp only [keysOK, keysOKList, Bool.and_eq_true] at h
      exact .arrCons (jequiv_refl x h.1) (jequiv_refl (.jarr xs) h.2)
  | .jobj fs, h => by
      simp only [keysOK, Bool.and_eq_true, decide_eq_true_eq] at h
      exact .obj h.1 h.1 (fun k => rfl)
        (fun k v w hv hw => by
          rw [hv] at hw
          injection hw with hvw
          subst hvw
          exact jequiv_refl v (keysOK_lookup hv h.2))
termination_by v => sizeOf v
decreasing_by
  · simp only [JValue.jarr.sizeOf_spec, List.cons.sizeOf_spec]
    omega
  · simp only [JValue.jarr.sizeOf_spec, List.cons.sizeOf_spec]
    omega
  · have := lookupF_sizeOf hv
    simp only [JValue.jobj.sizeOf_spec]
    omega

theorem lookupF_eq_none_iff (k : String) :
    ∀ {fs : List (String × JValue)}, lookupF k fs = none ↔ ∀ v, (k, v) ∉ fs := by
  intro fs
  induction fs with
  | nil => simp [lookupF]
  | cons p rest ih =>
      obtain ⟨k2, w⟩ := p
      by_cases hk : k2 = k
      · subst hk
        simp only [lookupF, if_pos rfl]
        constructor
        · intro h
          exact Option.noConfusion h
        · intro hall
          exact absurd (List.mem_cons_self _ _) (hall w)
      · simp only [lookupF, if_neg hk]
        rw [ih]
        constructor
        · intro hall v hmem
          rcases List.mem_cons.mp hmem with heq | hmem2
          · have : k = k2 := ((Prod.mk.injEq _ _ _ _).mp heq).1
            exact hk this.symm
          · exact hall v hmem2
        · intro hall v hmem
          exact hall v (List.mem_cons_of_mem _ hmem)

theorem lookupF_eq_some_iff_mem {k : String} {v : JValue} :
    ∀ {fs : List (String × JValue)}, (fs.map Prod.fst).Nodup →
      (lookupF k fs = some v ↔ (k, v) ∈ fs) := by
  intro fs
  induction fs with
  | nil => intro _; simp [lookupF]
  | cons p rest ih =>
      obtain ⟨k2, w⟩ := p
      intro nd
      simp only [List.map_cons, List.nodup_cons] at nd
      by_cases hk : k2 = k
      · subst hk
        simp only [lookupF, if_pos rfl, List.mem_cons]
        constructor
        · intro h
          injection h with h
          subst h
          exact Or.inl rfl
        · intro h
          rcases h with h | h
          · have hvw : v = w := ((Prod.mk.injEq _ _ _ _).mp h).2
            simp [hvw]
          · exact absurd (List.mem_map_of_mem Prod.fst h) nd.1
      · simp only [lookupF, if_neg hk, List.mem_cons]
        rw [ih nd.2]
        constructor
        · exact Or.inr
        · intro h
          rcases h with h | h
          · have : k = k2 := ((Prod.mk.injEq _ _ _ _).mp h).1
            exact absurd this.symm hk
          · exact h

/-- Permuting the fields of a duplicate-free object yields an equivalent
    document: what reordering in the serialized text amounts to. -/
theorem jequiv_of_perm {fs gs : List (String × JValue)} (hperm : fs.Perm gs)
    (hok : keysOK (.jobj fs) = true) : JEquiv (.jobj fs) (.jobj gs) := by
  simp only [keysOK, Bool.and_eq_true, decide_eq_true_eq] at hok
  have ndg : (gs.map Prod.fst).Nodup := ((hperm.map Prod.fst).nodup_iff).mp hok.1
  refine .obj hok.1 ndg ?_ ?_
  · intro k
    cases hv : lookupF k fs with
    | none =>
        rw [lookupF_eq_none_iff] at hv
        have : lookupF k gs = none := by
          rw [lookupF_eq_none_iff]
          intro v hmem
          exact hv v (hperm.mem_iff.mpr hmem)
        rw [this]
    | some v =>
        have hmem := (lookupF_eq_some_iff_mem hok.1).mp hv
        have : lookupF k gs = some v :=
          (lookupF_eq_some_iff_mem ndg).mpr (hperm.mem_iff.mp hmem)
        rw [this]
  · intro k v w hv hw
    have hmemv := (lookupF_eq_some_iff_mem hok.1).mp hv
    have hmemw := (lookupF_eq_some_iff_mem ndg).mp hw
    have hmemw2 : (k, w) ∈ fs := hperm.mem_iff.mpr hmemw
    have : lookupF k fs = some w := (lookupF_eq_some_iff_mem hok.1).mpr hmemw2
    rw [hv] at this
    injection this with hvw
    subst hvw
    exact jequiv_refl v (keysOK_lookup hv hok.2)

/-! ## Decoding is invariant under JEquiv

DecAgree collects, for every decoder in the development, the statement that
it answers the same on two documents; JEquiv implies all of them at once
(the induction needs them simultaneously because the struct decoders call
the readers and each other through object fields). -/

structure DecAgree (v w : JValue) : Prop where
  rStr : readStr v = readStr w
  rInt : readInt v = readInt w
  rNat : readNat v = readNat w
  rFlt : readFlt v = readFlt w
  rBool : readBool v = readBool w
  rTime : readTime v = readTime w
  lInt : readList readInt v = readList readInt w
  lNodeCommon : readList decNodeCommon v = readList decNodeCommon w
  lDrivePerfInfo : readList decDrivePerfInfo v = readList decDrivePerfInfo w
  lDrivePerfInfos : readList decDrivePerfInfos v = readList decDrivePerfInfos w
  lPeerNet : readList decPeerNetPerfInfo v = readList decPeerNetPerfInfo w
  lNetPerf : readList decNetPerfInfo v = readList decNetPerfInfo w
  lServerCPU : readList decServerCPUInfo v = readList decServerCPUInfo w
  lServerDiskHw : readList decServerDiskHwInfo v = readList decServerDiskHwInfo w
  lServerOs : readList decServerOsInfo v = readList decServerOsInfo w
  lServerMem : readList decServerMemInfo v = readList decServerMemInfo w
  lSysProcess : readList decSysProcess v = readList decSysProcess w
  lServerProc : readList decServerProcInfo v = readList decServerProcInfo w
  dNodeCommon : decNodeCommon v = decNodeCommon w
  dSysInfo : decSysInfo v = decSysInfo w
  dMinio : decMinioHealthInfo v = decMinioHealthInfo w
  dLatency : decLatency v = decLatency w
  dThroughput : decThroughput v = decThroughput w
  dDrivePerfInfo : decDrivePerfInfo v = decDrivePerfInfo w
  dDrivePerfInfos : decDrivePerfInfos v = decDrivePerfInfos w
  dPeerNet : decPeerNetPerfInfo v = decPeerNetPerfInfo w
  dNetPerf : decNetPerfInfo v = decNetPerfInfo w
  dPerfInfo : decPerfInfo v = decPerfInfo w
  dHealthInfoV2 : decHealthInfoV2 v = decHealthInfoV2 w
  dServerCPU : decServerCPUInfo v = decServerCPUInfo w
  dServerDiskHw : decServerDiskHwInfo v = decServerDiskHwInfo w
  dServerOs : decServerOsInfo v = decServerOsInfo w
  dServerMem : decServerMemInfo v = decServerMemInfo w
  dSysProcess : decSysProcess v = decSysProcess w
  dServerProc : decServerProcInfo v = decServerProcInfo w
  dSysHealth : decSysHealthInfo v = decSysHealthInfo w
  dHealthInfoV0 : decHealthInfoV0 v = decHealthInfoV0 w

theorem decAgree_refl (v : JValue) : DecAgree v v := by
  constructor <;> rfl

theorem fieldD_congr {a : Type} {fs gs : List (String × JValue)}
    (hs : ∀ k, (lookupF k fs).isSome = (lookupF k gs).isSome)
    (hrel : ∀ k v w, lookupF k fs = some v → lookupF k gs = some w → DecAgree v w)
    (k : String) (r : JValue → Option a) (d : a)
    (hr : ∀ v w, DecAgree v w → r v = r w) :
    fieldD fs k r d = fieldD gs k r d := by
  unfold fieldD
  cases hv : lookupF k fs with
  | none =>
      cases hgs : lookupF k gs with
      | none => rfl
      | some w =>
          exfalso
          have := hs k
          rw [hv, hgs] at this
          simp at this
  | some v =>
      cases hgs : lookupF k gs with
      | none =>
          exfalso
          have := hs k
          rw [hv, hgs] at this
          simp at this
      | some w => exact hr v w (hrel k v w hv hgs)

theorem decNodeCommonFields_congr {fs gs : List (String × JValue)}
    (hs : ∀ k, (lookupF k fs).isSome = (lookupF k gs).isSome)
    (hrel : ∀ k v w, lookupF k fs = some v → lookupF k gs = some w → DecAgree v w) :
    decNodeCommonFields fs = decNodeCommonFields gs := by
  unfold decNodeCommonFields
  rw [fieldD_congr hs hrel "addr" readStr "" (fun v w hd => hd.rStr),
      fieldD_congr hs hrel "error" readStr "" (fun v w hd => hd.rStr)]

theorem decSysProcessA_congr {fs gs : List (String × JValue)}
    (hs : ∀ k, (lookupF k fs).isSome = (lookupF k gs).isSome)
    (hrel : ∀ k v w, lookupF k fs = some v → lookupF k gs = some w → DecAgree v w) :
    decSysProcessA fs = decSysProcessA gs := by
  unfold decSysProcessA
  rw [fieldD_congr hs hrel "pid" readInt 0 (fun v w hd => hd.rInt),
      fieldD_congr hs hrel "background" readBool false (fun v w hd => hd.rBool),
      fieldD_congr hs hrel "cpupercent" readFlt GoFloat.zero (fun v w hd => hd.rFlt),
      fieldD_congr hs hrel "children" (readList readInt) [] (fun v w hd => hd.lInt),
      fieldD_congr hs hrel "cmd" readStr "" (fun v w hd => hd.rStr),
      fieldD_congr hs hrel "connection_count" readInt 0 (fun v w hd => hd.rInt)]

theorem decSysProcessB_congr {fs gs : List (String × JValue)}
    (hs : ∀ k, (lookupF k fs).isSome = (lookupF k gs).isSome)
    (hrel : ∀ k v w, lookupF k fs = some v → lookupF k gs = some w → DecAgree v w) :
    decSysProcessB fs = decSysProcessB gs := by
  unfold decSysProcessB
  rw [fieldD_congr hs hrel "createtime" readInt 0 (fun v w hd => hd.rInt),
      fieldD_congr hs hrel "cwd" readStr "" (fun v w hd => hd.rStr),
      fieldD_congr hs hrel "exe" readStr "" (fun v w hd => hd.rStr),
      fieldD_congr hs hrel "gids" (readList readInt) [] (fun v w hd => hd.lInt),
      fieldD_congr hs hrel "isrunning" readBool false (fun v w hd => hd.rBool),
      fieldD_congr hs hrel "mempercent" readFlt GoFloat.zero (fun v w hd => hd.rFlt)]

theorem decSysProcessC_congr {fs gs : List (String × JValue)}
    (hs : ∀ k, (lookupF k fs).isSome = (lookupF k gs).isSome)
    (hrel : ∀ k v w, lookupF k fs = some v → lookupF k gs = some w → DecAgree v w) :
    decSysProcessC fs = decSysProcessC gs := by
  unfold decSysProcessC
  rw [fieldD_congr hs hrel "name" readStr "" (fun v w hd => hd.rStr),
      fieldD_congr hs hrel "nice" readInt 0 (fun v w hd => hd.rInt),
      fieldD_congr hs hrel "numfds" readInt 0 (fun v w hd => hd.rInt),
      fieldD_congr hs hrel "numthreads" readInt 0 (fun v w hd => hd.rInt),
      fieldD_congr hs hrel "parent" readInt 0 (fun v w hd => hd.rInt),
      fieldD_congr hs hrel "ppid" readInt 0 (fun v w hd => hd.rInt)]

theorem decSysProcessD_congr {fs gs : List (String × JValue)}
    (hs : ∀ k, (lookupF k fs).isSome = (lookupF k gs).isSome)
    (hrel : ∀ k v w, lookupF k fs = some v → lookupF k gs = some w → DecAgree v w) :
    decSysProcessD fs = decSysProcessD gs := by
  unfold decSysProcessD
  rw [fieldD_congr hs hrel "status" readStr "" (fun v w hd => hd.rStr),
      fieldD_congr hs hrel "tgid" readInt 0 (fun v w hd => hd.rInt),
      fieldD_congr hs hrel "uids" (readList readInt) [] (fun v w hd => hd.lInt),
      fieldD_congr hs hrel "username" readStr "" (fun v w hd => hd.rStr)]

theorem jequiv_decAgree {v w : JValue} (h : JEquiv v w) : DecAgree v w := by
  induction h with
  | jstr s => exact decAgree_refl _
  | jint n => exact decAgree_refl _
  | jflt cs => exact decAgree_refl _
  | jbool b => exact decAgree_refl _
  | jtime t => exact decAgree_refl _
  | arrNil => exact decAgree_refl _
  | arrCons hx hxs ihx ihxs =>
      constructor
      · rfl
      · rfl
      · rfl
      · rfl
      · rfl
      · rfl
      · show decList readInt _ = decList readInt _
        have h1 := ihx.rInt
        have h2 : decList readInt _ = decList readInt _ := ihxs.lInt
        simp only [decList]
        rw [h1, h2]
      · show decList decNodeCommon _ = decList decNodeCommon _
        have h1 := ihx.dNodeCommon
        have h2 : decList decNodeCommon _ = decList decNodeCommon _ := ihxs.lNodeCommon
        simp only [decList]
        rw [h1, h2]
      · show decList decDrivePerfInfo _ = decList decDrivePerfInfo _
        have h1 := ihx.dDrivePerfInfo
        have h2 : decList decDrivePerfInfo _ = decList decDrivePerfInfo _ := ihxs.lDrivePerfInfo
        simp only [decList]
        rw [h1, h2]
      · show decList decDrivePerfInfos _ = decList decDrivePerfInfos _
        have h1 := ihx.dDrivePerfInfos
        have h2 : decList decDrivePerfInfos _ = decList decDrivePerfInfos _ := ihxs.lDrivePerfInfos
        simp only [decList]
        rw [h1, h2]
      · show decList decPeerNetPerfInfo _ = decList decPeerNetPerfInfo _
        have h1 := ihx.dPeerNet
        have h2 : decList decPeerNetPerfInfo _ = decList decPeerNetPerfInfo _ := ihxs.lPeerNet
        simp only [decList]
        rw [h1, h2]
      · show decList decNetPerfInfo _ = decList decNetPerfInfo _
        have h1 := ihx.dNetPerf
        have h2 : decList decNetPerfInfo _ = decList decNetPerfInfo _ := ihxs.lNetPerf
        simp only [decList]
        rw [h1, h2]
      · show decList decServerCPUInfo _ = decList decServerCPUInfo _
        have h1 := ihx.dServerCPU
        have h2 : decList decServerCPUInfo _ = decList decServerCPUInfo _ := ihxs.lServerCPU
        simp only [decList]
        rw [h1, h2]
      · show decList decServerDiskHwInfo _ = decList decServerDiskHwInfo _
        have h1 := ihx.dServerDiskHw
        have h2 : decList decServerDiskHwInfo _ = decList decServerDiskHwInfo _ := ihxs.lServerDiskHw
        simp only [decList]
        rw [h1, h2]
      · show decList decServerOsInfo _ = decList decServerOsInfo _
        have h1 := ihx.dServerOs
        have h2 : decList decServerOsInfo _ = decList decServerOsInfo _ := ihxs.lServerOs
        simp only [decList]
        rw [h1, h2]
      · show decList decServerMemInfo _ = decList decServerMemInfo _
        have h1 := ihx.dServerMem
        have h2 : decList decServerMemInfo _ = decList decServerMemInfo _ := ihxs.lServerMem
        simp only [decList]
        rw [h1, h2]
      · show decList decSysProcess _ = decList decSysProcess _
        have h1 := ihx.dSysProcess
        have h2 : decList decSysProcess _ = decList decSysProcess _ := ihxs.lSysProcess
        simp only [decList]
        rw [h1, h2]
      · show decList decServerProcInfo _ = decList decServerProcInfo _
        have h1 := ihx.dServerProc
        have h2 : decList decServerProcInfo _ = decList decServerProcInfo _ := ihxs.lServerProc
        simp only [decList]
        rw [h1, h2]
      · rfl
      · rfl
      · rfl
      · rfl
      · rfl
      · rfl
      · rfl
      · rfl
      · rfl
      · rfl
      · rfl
      · rfl
      · rfl
      · rfl
      · rfl
      · rfl
      · rfl
      · rfl
      · rfl
  | obj nd1 nd2 hs hrel ihrel =>
      constructor
      · rfl
      · rfl
      · rfl
      · rfl
      · rfl
      · rfl
      · rfl
      · rfl
      · rfl
      · rfl
      · rfl
      · rfl
      · rfl
      · rfl
      · rfl
      · rfl
      · rfl
      · rfl
      · simp only [decNodeCommon]
        exact decNodeCommonFields_congr hs ihrel
      · simp only [decSysInfo]
        rw [fieldD_congr hs ihrel "nodes" (readList decNodeCommon) [] (fun v w hd => hd.lNodeCommon)]
      · simp only [decMinioHealthInfo]
        rw [fieldD_congr hs ihrel "info" readStr "" (fun v w hd => hd.rStr),
            fieldD_congr hs ihrel "error" readStr "" (fun v w hd => hd.rStr)]
      · simp only [decLatency]
        rw [fieldD_congr hs ihrel "avg" readFlt GoFloat.zero (fun v w hd => hd.rFlt),
            fieldD_congr hs ihrel "max" readFlt GoFloat.zero (fun v w hd => hd.rFlt),
            fieldD_congr hs ihrel "min" readFlt GoFloat.zero (fun v w hd => hd.rFlt),
            fieldD_congr hs ihrel "percentile_50" readFlt GoFloat.zero (fun v w hd => hd.rFlt),
            fieldD_congr hs ihrel "percentile_90" readFlt GoFloat.zero (fun v w hd => hd.rFlt),
            fieldD_congr hs ihrel "percentile_99" readFlt GoFloat.zero (fun v w hd => hd.rFlt)]
      · simp only [decThroughput]
        rw [fieldD_congr hs ihrel "avg" readNat 0 (fun v w hd => hd.rNat),
            fieldD_congr hs ihrel "max" readNat 0 (fun v w hd => hd.rNat),
            fieldD_congr hs ihrel "min" readNat 0 (fun v w hd => hd.rNat),
            fieldD_congr hs ihrel "percentile_50" readNat 0 (fun v w hd => hd.rNat),
            fieldD_congr hs ihrel "percentile_90" readNat 0 (fun v w hd => hd.rNat),
            fieldD_congr hs ihrel "percentile_99" readNat 0 (fun v w hd => hd.rNat)]
      · simp only [decDrivePerfInfo]
        rw [fieldD_congr hs ihrel "error" readStr "" (fun v w hd => hd.rStr),
            fieldD_congr hs ihrel "path" readStr "" (fun v w hd => hd.rStr),
            fieldD_congr hs ihrel "latency" decLatency Latency.zero (fun v w hd => hd.dLatency),
            fieldD_congr hs ihrel "throughput" decThroughput Throughput.zero (fun v w hd => hd.dThroughput)]
      · simp only [decDrivePerfInfos]
        rw [decNodeCommonFields_congr hs ihrel,
            fieldD_congr hs ihrel "serial_perf" (readList decDrivePerfInfo) [] (fun v w hd => hd.lDrivePerfInfo),
            fieldD_congr hs ihrel "parallel_perf" (readList decDrivePerfInfo) [] (fun v w hd => hd.lDrivePerfInfo)]
      · simp only [decPeerNetPerfInfo]
        rw [decNodeCommonFields_congr hs ihrel,
            fieldD_congr hs ihrel "latency" decLatency Latency.zero (fun v w hd => hd.dLatency),
            fieldD_congr hs ihrel "throughput" decThroughput Throughput.zero (fun v w hd => hd.dThroughput)]
      · simp only [decNetPerfInfo]
        rw [decNodeCommonFields_congr hs ihrel,
            fieldD_congr hs ihrel "remote_peers" (readList decPeerNetPerfInfo) [] (fun v w hd => hd.lPeerNet)]
      · simp only [decPerfInfo]
        rw [fieldD_congr hs ihrel "drives" (readList decDrivePerfInfos) [] (fun v w hd => hd.lDrivePerfInfos),
            fieldD_congr hs ihrel "net" (readList decNetPerfInfo) [] (fun v w hd => hd.lNetPerf),
            fieldD_congr hs ihrel "net_parallel" decNetPerfInfo NetPerfInfo.zero (fun v w hd => hd.dNetPerf)]
      · simp only [decHealthInfoV2]
        rw [fieldD_congr hs ihrel "version" readStr "" (fun v w hd => hd.rStr),
            fieldD_congr hs ihrel "error" readStr "" (fun v w hd => hd.rStr),
            fieldD_congr hs ihrel "timestamp" readTime GoTime.zero (fun v w hd => hd.rTime),
            fieldD_congr hs ihrel "sys" decSysInfo SysInfo.zero (fun v w hd => hd.dSysInfo),
            fieldD_congr hs ihrel "perf" decPerfInfo PerfInfo.zero (fun v w hd => hd.dPerfInfo),
            fieldD_congr hs ihrel "minio" decMinioHealthInfo MinioHealthInfo.zero (fun v w hd => hd.dMinio)]
      · simp only [decServerCPUInfo]
        rw [fieldD_congr hs ihrel "addr" readStr "" (fun v w hd => hd.rStr),
            fieldD_congr hs ihrel "error" readStr "" (fun v w hd => hd.rStr)]
      · simp only [decServerDiskHwInfo]
        rw [fieldD_congr hs ihrel "addr" readStr "" (fun v w hd => hd.rStr),
            fieldD_congr hs ihrel "error" readStr "" (fun v w hd => hd.rStr)]
      · simp only [decServerOsInfo]
        rw [fieldD_congr hs ihrel "addr" readStr "" (fun v w hd => hd.rStr),
            fieldD_congr hs ihrel "error" readStr "" (fun v w hd => hd.rStr)]
      · simp only [decServerMemInfo]
        rw [fieldD_congr hs ihrel "addr" readStr "" (fun v w hd => hd.rStr),
            fieldD_congr hs ihrel "error" readStr "" (fun v w hd => hd.rStr)]
      · simp only [decSysProcess]
        unfold decSysProcessFields
        rw [decSysProcessA_congr hs ihrel, decSysProcessB_congr hs ihrel,
            decSysProcessC_congr hs ihrel, decSysProcessD_congr hs ihrel]
      · simp only [decServerProcInfo]
        rw [fieldD_congr hs ihrel "addr" readStr "" (fun v w hd => hd.rStr),
            fieldD_congr hs ihrel "processes" (readList decSysProcess) [] (fun v w hd => hd.lSysProcess),
            fieldD_congr hs ihrel "error" readStr "" (fun v w hd => hd.rStr)]
      · simp only [decSysHealthInfo]
        rw [fieldD_congr hs ihrel "cpus" (readList decServerCPUInfo) [] (fun v w hd => hd.lServerCPU),
            fieldD_congr hs ihrel "drives" (readList decServerDiskHwInfo) [] (fun v w hd => hd.lServerDiskHw),
            fieldD_congr hs ihrel "osinfos" (readList decServerOsInfo) [] (fun v w hd => hd.lServerOs),
            fieldD_congr hs ihrel "meminfos" (readList decServerMemInfo) [] (fun v w hd => hd.lServerMem),
            fieldD_congr hs ihrel "procinfos" (readList decServerProcInfo) [] (fun v w hd => hd.lServerProc),
            fieldD_congr hs ihrel "error" readStr "" (fun v w hd => hd.rStr)]
      · simp only [decHealthInfoV0]
        rw [fieldD_congr hs ihrel "timestamp" readTime GoTime.zero (fun v w hd => hd.rTime),
            fieldD_congr hs ihrel "error" readStr "" (fun v w hd => hd.rStr),
            fieldD_congr hs ihrel "sys" decSysHealthInfo SysHealthInfo.zero (fun v w hd => hd.dSysHealth)]

/-- Reversing the top-level fields of an object: a concrete reordering of
    the serialized fields. -/
def revTop : JValue → JValue
  | .jobj fs => .jobj fs.reverse
  | v => v

theorem jequiv_revTop {m : JValue} (h : keysOK (revTop m) = true) :
    JEquiv (revTop m) m := by
  cases m with
  | jobj fs => exact jequiv_of_perm fs.reverse_perm h
  | jstr s => exact .jstr s
  | jint n => exact .jint n
  | jflt cs => exact .jflt cs
  | jbool b => exact .jbool b
  | jtime t => exact .jtime t
  | jarr xs => exact jequiv_refl _ h

/-- C3: for every populated health-report record (HealthInfoV2, and
    HealthInfoV0 whose omitempty float fields are not negative zero),
    encoding it via String's marshalling and then decoding the produced
    document - or any document carrying the same fields in any order -
    yields a record structurally equal to the original. -/
theorem roundtrip_spec (x : HealthInfoV2) (y : HealthInfoV0) (mx my vx vy : JValue)
    (hmx : encHealthInfoV2 x = some mx) (hex : JEquiv vx mx)
    (hrt : y.rtOK = true) (hmy : encHealthInfoV0 y = some my) (hey : JEquiv vy my) :
    decHealthInfoV2 vx = some x ∧ decHealthInfoV0 vy = some y := by
  constructor
  · rw [(jequiv_decAgree hex).dHealthInfoV2]
    exact dec_enc_HealthInfoV2 hmx
  · rw [(jequiv_decAgree hey).dHealthInfoV0]
    exact dec_enc_HealthInfoV0 hrt hmy

/-- A populated V2 report for the round-trip witness. -/
def rtX : HealthInfoV2 :=
  { Version := "2",
    Error := "disk read timeout",
    TimeStamp := ⟨2022, 6, 1, 12, 30, 5, 500000000⟩,
    Sys := ⟨[⟨"node1:9000", ""⟩, ⟨"node2:9000", "probe failed"⟩]⟩,
    Perf := ⟨[⟨⟨"node1:9000", ""⟩,
              [⟨"", "/disk1", ⟨.finite ['0', '.', '5'], .finite ['1'], .finite ['0'],
                 .finite ['0', '.', '4'], .finite ['0', '.', '9'], .finite ['1']⟩,
                ⟨100, 200, 50, 90, 180, 199⟩⟩], []⟩],
            [], .zero⟩,
    Minio := ⟨"cfg", ""⟩ }

/-- A populated V0 report for the round-trip witness. -/
def rtY : HealthInfoV0 :=
  { TimeStamp := ⟨2021, 12, 31, 23, 59, 59, 0⟩,
    Error := "",
    Sys := ⟨[⟨"node1:9000", ""⟩], [], [],
            [⟨"node1:9000", "mem probe failed"⟩],
            [⟨"node1:9000",
              [{ SysProcess.zero with
                   Pid := 42, Username := "root", Name := "minio",
                   CPUPercent := .finite ['1', '.', '5'], IsRunning := true,
                   Children := [43, 44] }], ""⟩],
            ""⟩ }

def rtXm : JValue := (encHealthInfoV2 rtX).getD (.jobj [])

def rtYm : JValue := (encHealthInfoV0 rtY).getD (.jobj [])

def rtXv : JValue := revTop rtXm

def rtYv : JValue := revTop rtYm

/-- Witness for C3 at the concrete reports: the encoded documents with their
    top-level fields reversed still decode to the original records. -/
theorem roundtrip_spec_witness :
    encHealthInfoV2 rtX = some rtXm ∧ rtY.rtOK = true ∧
    encHealthInfoV0 rtY = some rtYm ∧
    (decHealthInfoV2 rtXv = some rtX ∧ decHealthInfoV0 rtYv = some rtY) :=
  ⟨rfl, by decide, rfl,
    roundtrip_spec rtX rtY rtXm rtYm rtXv rtYv rfl
      (jequiv_revTop (by decide)) (by decide) rfl (jequiv_revTop (by decide))⟩

/-! ## Compact versus indented output (claim C6)

json.MarshalIndent produces the bytes of json.Marshal with whitespace
inserted outside string literals (newlines, the prefix and indent after
braces and commas, one space after colons).  stripWs removes exactly the
whitespace standing outside string literals; the indented output stripped
this way is byte-for-byte the compact output. -/

/-- Whitespace as JSON knows it between tokens. -/
def wsChar (c : Char) : Bool := c = ' ' || c = '\n' || c = '\t' || c = '\r'

/-- Remove whitespace outside string literals.  The flag says whether the
    scan stands inside a string literal; inside one, characters (and escape
    pairs) are copied verbatim and only an unescaped quote leaves the
    literal. -/
def stripWs : Bool → List Char → List Char
  | _, [] => []
  | false, c :: rest =>
      if wsChar c then stripWs false rest else c :: stripWs (c == '"') rest
  | true, c :: rest =>
      if c == '"' then c :: stripWs false rest
      else if c == '\\' then
        match rest with
        | [] => [c]
        | x :: rest2 => c :: x :: stripWs true rest2
      else c :: stripWs true rest

/-- The characters strconv may use in a decimal float form. -/
def numChar (c : Char) : Bool :=
  c = '0' || c = '1' || c = '2' || c = '3' || c = '4' || c = '5' || c = '6' ||
  c = '7' || c = '8' || c = '9' || c = '-' || c = '+' || c = '.' || c = 'e' || c = 'E'

/-- A well-formed float lexeme: nonempty and made of number characters, as
    strconv's output always is. -/
def numLexOK (cs : List Char) : Bool := !cs.isEmpty && cs.all numChar

mutual

/-- Every float lexeme in the document is a well-formed number lexeme. -/
def wfTok : JValue → Bool
  | .jflt cs => numLexOK cs
  | .jarr xs => wfTokList xs
  | .jobj fs => wfTokFields fs
  | _ => true

def wfTokList : List JValue → Bool
  | [] => true
  | x :: xs => wfTok x && wfTokList xs

def wfTokFields : List (String × JValue) → Bool
  | [] => true
  | (_, v) :: fs => wfTok v && wfTokFields fs

end

theorem stripWs_cons_plain {c : Char} {l : List Char}
    (h1 : wsChar c = false) (h2 : (c == '"') = false) :
    stripWs false (c :: l) = c :: stripWs false l := by
  simp [stripWs, h1, h2]

theorem stripWs_cons_quote (l : List Char) :
    stripWs false ('"' :: l) = '"' :: stripWs true l := by
  rw [stripWs]
  simp [wsChar]

theorem stripWs_cons_ws {c : Char} {l : List Char} (h : wsChar c = true) :
    stripWs false (c :: l) = stripWs false l := by
  simp [stripWs, h]

theorem stripWs_true_cons {c : Char} {l : List Char}
    (h1 : (c == '"') = false) (h2 : (c == '\\') = false) :
    stripWs true (c :: l) = c :: stripWs true l := by
  rw [stripWs.eq_def]
  simp [h1, h2]

theorem stripWs_true_pair (x : Char) (l : List Char) :
    stripWs true ('\\' :: x :: l) = '\\' :: x :: stripWs true l := by
  rw [stripWs]
  simp

theorem stripWs_true_quote (l : List Char) :
    stripWs true ('"' :: l) = '"' :: stripWs false l := by
  rw [stripWs.eq_def]
  simp

theorem hexDigitChar_plain {d : Nat} (h : d < 16) :
    (hexDigitChar d == '"') = false ∧ (hexDigitChar d == '\\') = false := by
  interval_cases d <;> decide

set_option maxHeartbeats 1600000 in
theorem stripWs_true_escChar (c : Char) (l : List Char) :
    stripWs true (escChar c ++ l) = escChar c ++ stripWs true l := by
  have hu : ∀ x, stripWs true (uEsc x ++ l) = uEsc x ++ stripWs true l := by
    intro x
    have h1 := hexDigitChar_plain (d := x.toNat / 4096 % 16) (Nat.mod_lt _ (by norm_num))
    have h2 := hexDigitChar_plain (d := x.toNat / 256 % 16) (Nat.mod_lt _ (by norm_num))
    have h3 := hexDigitChar_plain (d := x.toNat / 16 % 16) (Nat.mod_lt _ (by norm_num))
    have h4 := hexDigitChar_plain (d := x.toNat % 16) (Nat.mod_lt _ (by norm_num))
    simp only [uEsc, List.cons_append, List.nil_append]
    rw [stripWs_true_pair, stripWs_true_cons h1.1 h1.2, stripWs_true_cons h2.1 h2.2,
        stripWs_true_cons h3.1 h3.2, stripWs_true_cons h4.1 h4.2]
  unfold escChar
  split_ifs with hq hb hn hr ht hc hlt hgt ha h28 h29
  · subst hq
    simp only [List.cons_append, List.nil_append]
    rw [stripWs_true_pair]
  · subst hb
    simp only [List.cons_append, List.nil_append]
    rw [stripWs_true_pair]
  · subst hn
    simp only [List.cons_append, List.nil_append]
    rw [stripWs_true_pair]
  · subst hr
    simp only [List.cons_append, List.nil_append]
    rw [stripWs_true_pair]
  · subst ht
    simp only [List.cons_append, List.nil_append]
    rw [stripWs_true_pair]
  · exact hu c
  · exact hu c
  · exact hu c
  · exact hu c
  · exact hu c
  · exact hu c
  · simp only [List.cons_append, List.nil_append]
    rw [stripWs_true_cons (by simp [hq]) (by simp [hb])]

theorem stripWs_true_esc (cs : List Char) (l : List Char) :
    stripWs true (escChars cs ++ l) = escChars cs ++ stripWs true l := by
  induction cs with
  | nil => simp [escChars]
  | cons c t ih =>
      simp only [escChars, List.flatMap_cons, List.append_assoc] at *
      rw [stripWs_true_escChar, ih]

theorem stripWs_string (cs : List Char) (rest : List Char) :
    stripWs true (escChars cs ++ '"' :: rest) = escChars cs ++ '"' :: stripWs false rest := by
  rw [stripWs_true_esc, stripWs_true_quote]

theorem stripWs_append_plain {a : List Char} {l : List Char}
    (h : ∀ c ∈ a, wsChar c = false ∧ (c == '"') = false) :
    stripWs false (a ++ l) = a ++ stripWs false l := by
  induction a with
  | nil => simp
  | cons c t ih =>
      simp only [List.cons_append]
      rw [stripWs_cons_plain (h c (by simp)).1 (h c (by simp)).2,
          ih (fun c hc => h c (by simp [hc]))]

theorem stripWs_replicate_space (n : Nat) (l : List Char) :
    stripWs false (List.replicate n ' ' ++ l) = stripWs false l := by
  induction n with
  | zero => simp
  | succ m ih =>
      simp only [List.replicate_succ, List.cons_append]
      rw [stripWs_cons_ws (by decide), ih]

theorem stripWs_nlIndent (d : Nat) (l : List Char) :
    stripWs false (nlIndent d ++ l) = stripWs false l := by
  simp only [nlIndent, List.cons_append]
  rw [stripWs_cons_ws (by decide), stripWs_cons_ws (by decide), stripWs_replicate_space]

theorem digitChar_plain {d : Nat} (h : d < 10) :
    wsChar (digitChar d) = false ∧ (digitChar d == '"') = false := by
  interval_cases d <;> decide

theorem natCharsAux_plain :
    ∀ (fuel n : Nat) (acc : List Char),
      (∀ c ∈ acc, wsChar c = false ∧ (c == '"') = false) →
      ∀ c ∈ natCharsAux fuel n acc, wsChar c = false ∧ (c == '"') = false := by
  intro fuel
  induction fuel with
  | zero => intro n acc hacc c hc; exact hacc c hc
  | succ m ih =>
      intro n acc hacc c hc
      unfold natCharsAux at hc
      split at hc
      · exact hacc c hc
      · refine ih (n / 10) _ ?_ c hc
        intro c2 hc2
        rcases List.mem_cons.mp hc2 with he | hm
        · subst he
          exact digitChar_plain (Nat.mod_lt _ (by norm_num))
        · exact hacc c2 hm

theorem natChars_plain (n : Nat) :
    ∀ c ∈ natChars n, wsChar c = false ∧ (c == '"') = false := by
  unfold natChars
  split
  · intro c hc
    simp at hc
    subst hc
    decide
  · exact natCharsAux_plain n n [] (by simp)

theorem intChars_plain (n : Int) :
    ∀ c ∈ intChars n, wsChar c = false ∧ (c == '"') = false := by
  unfold intChars
  split
  · intro c hc
    rcases List.mem_cons.mp hc with he | hm
    · subst he
      decide
    · exact natChars_plain _ c hm
  · exact natChars_plain _

theorem numChar_plain {c : Char} (h : numChar c = true) :
    wsChar c = false ∧ (c == '"') = false := by
  simp only [numChar, Bool.or_eq_true, decide_eq_true_eq] at h
  rcases h with ((((((((((((((h | h) | h) | h) | h) | h) | h) | h) | h) | h) | h) |
    h) | h) | h) | h) <;> subst h <;> decide

theorem numLexOK_plain {cs : List Char} (h : numLexOK cs = true) :
    ∀ c ∈ cs, wsChar c = false ∧ (c == '"') = false := by
  simp only [numLexOK, Bool.and_eq_true, List.all_eq_true] at h
  exact fun c hc => numChar_plain (h.2 c hc)

mutual

theorem stripWs_renderInd : ∀ (v : JValue), wfTok v = true → ∀ (d : Nat) (rest : List Char),
    stripWs false (renderInd d v ++ rest) = render v ++ stripWs false rest
  | .jstr s, _, d, rest => by
      simp only [renderInd, render, List.cons_append, List.append_assoc,
        List.singleton_append, List.nil_append]
      rw [stripWs_cons_quote, stripWs_string]
  | .jint n, _, d, rest => by
      simp only [renderInd, render]
      exact stripWs_append_plain (intChars_plain n)
  | .jflt cs, h, d, rest => by
      simp only [renderInd, render]
      refine stripWs_append_plain (numLexOK_plain ?_)
      simpa [wfTok] using h
  | .jbool b, _, d, rest => by
      cases b <;> simp only [renderInd, render] <;>
        exact stripWs_append_plain (by decide)
  | .jtime t, _, d, rest => by
      simp only [renderInd, render, List.cons_append, List.append_assoc,
        List.singleton_append, List.nil_append]
      rw [stripWs_cons_quote, stripWs_string]
  | .jarr [], _, d, rest => by
      simp only [renderInd, render, renderArr, List.cons_append, List.nil_append,
        List.singleton_append]
      rw [stripWs_cons_plain (by decide) (by decide),
        stripWs_cons_plain (by decide) (by decide)]
  | .jarr (x :: xs), h, d, rest => by
      have hl : wfTokList (x :: xs) = true := by simpa [wfTok] using h
      simp only [renderInd, render, List.cons_append, List.append_assoc,
        List.singleton_append, List.nil_append]
      rw [stripWs_cons_plain (by decide) (by decide), stripWs_nlIndent,
        stripWs_renderIndArr (x :: xs) hl (d + 1) (nlIndent d ++ ']' :: rest),
        stripWs_nlIndent, stripWs_cons_plain (by decide) (by decide)]
  | .jobj [], _, d, rest => by
      simp only [renderInd, render, renderObj, List.cons_append, List.nil_append,
        List.singleton_append]
      rw [stripWs_cons_plain (by decide) (by decide),
        stripWs_cons_plain (by decide) (by decide)]
  | .jobj (f :: fs), h, d, rest => by
      have hl : wfTokFields (f :: fs) = true := by simpa [wfTok] using h
      simp only [renderInd, render, List.cons_append, List.append_assoc,
        List.singleton_append, List.nil_append]
      rw [stripWs_cons_plain (by decide) (by decide), stripWs_nlIndent,
        stripWs_renderIndObj (f :: fs) hl (d + 1) (nlIndent d ++ '}' :: rest),
        stripWs_nlIndent, stripWs_cons_plain (by decide) (by decide)]

theorem stripWs_renderIndArr : ∀ (xs : List JValue), wfTokList xs = true →
    ∀ (d : Nat) (rest : List Char),
    stripWs false (renderIndArr d xs ++ rest) = renderArr xs ++ stripWs false rest
  | [], _, d, rest => by simp [renderIndArr, renderArr]
  | [x], h, d, rest => by
      have hx : wfTok x = true := by simpa [wfTokList] using h
      simp only [renderIndArr, renderArr]
      exact stripWs_renderInd x hx d rest
  | x :: y :: t, h, d, rest => by
      simp only [wfTokList, Bool.and_eq_true] at h
      simp only [renderIndArr, renderArr, List.cons_append, List.append_assoc,
        List.nil_append]
      rw [stripWs_renderInd x h.1 d
            (',' :: (nlIndent d ++ (renderIndArr d (y :: t) ++ rest))),
          stripWs_cons_plain (by decide) (by decide), stripWs_nlIndent,
          stripWs_renderIndArr (y :: t) (by simp [wfTokList, h.2.1, h.2.2]) d rest]

theorem stripWs_renderIndObj : ∀ (fs : List (String × JValue)), wfTokFields fs = true →
    ∀ (d : Nat) (rest : List Char),
    stripWs false (renderIndObj d fs ++ rest) = renderObj fs ++ stripWs false rest
  | [], _, d, rest => by simp [renderIndObj, renderObj]
  | [(k, v)], h, d, rest => by
      have hv : wfTok v = true := by simpa [wfTokFields] using h
      simp only [renderIndObj, renderObj, List.cons_append, List.append_assoc,
        List.singleton_append]
      rw [stripWs_cons_quote, stripWs_string, stripWs_cons_plain (by decide) (by decide),
          stripWs_cons_ws (by decide), stripWs_renderInd v hv d rest]
  | (k, v) :: f :: t, h, d, rest => by
      simp only [wfTokFields, Bool.and_eq_true] at h
      simp only [renderIndObj, renderObj, List.cons_append, List.append_assoc,
        List.singleton_append, List.nil_append]
      rw [stripWs_cons_quote, stripWs_string, stripWs_cons_plain (by decide) (by decide),
          stripWs_cons_ws (by decide),
          stripWs_renderInd v h.1 d
            (',' :: (nlIndent d ++ (renderIndObj d (f :: t) ++ rest))),
          stripWs_cons_plain (by decide) (by decide), stripWs_nlIndent,
          stripWs_renderIndObj (f :: t) (by
            cases f with
            | mk k2 v2 => simp [wfTokFields, h.2.1, h.2.2]) d rest]

end

/-- C6: the indented encoding produced by JSON and the compact encoding
    produced by String carry identical semantic content, differing only in
    whitespace: both render the same marshalled document, and removing the
    whitespace standing outside string literals from the JSON output yields
    byte-for-byte the String output, for HealthInfoV2 and HealthInfoV0
    alike.  (The float lexemes of the document are well-formed number
    lexemes, as strconv always prints.) -/
theorem string_json_whitespace_equiv (x : HealthInfoV2) (y : HealthInfoV0)
    (mx my : JValue) (sx jx sy jy : String)
    (hmx : encHealthInfoV2 x = some mx) (hwx : wfTok mx = true)
    (hmy : encHealthInfoV0 y = some my) (hwy : wfTok my = true)
    (hsx : x.string = some sx) (hjx : x.json = some jx)
    (hsy : y.string = some sy) (hjy : y.json = some jy) :
    stripWs false jx.data = sx.data ∧ stripWs false jy.data = sy.data := by
  rw [HealthInfoV2.string, hmx] at hsx
  rw [HealthInfoV2.json, hmx] at hjx
  rw [HealthInfoV0.string, hmy] at hsy
  rw [HealthInfoV0.json, hmy] at hjy
  simp only [Option.map_some', Option.some.injEq] at hsx hjx hsy hjy
  subst hsx hjx hsy hjy
  constructor
  · have := stripWs_renderInd mx hwx 0 []
    simpa [show stripWs false ([] : List Char) = [] from rfl] using this
  · have := stripWs_renderInd my hwy 0 []
    simpa [show stripWs false ([] : List Char) = [] from rfl] using this

def rtXs : String := rtX.string.getD ""

def rtXj : String := rtX.json.getD ""

def rtYs : String := rtY.string.getD ""

def rtYj : String := rtY.json.getD ""

/-- Witness for C6 at the concrete reports. -/
theorem string_json_whitespace_equiv_witness :
    encHealthInfoV2 rtX = some rtXm ∧ wfTok rtXm = true ∧
    encHealthInfoV0 rtY = some rtYm ∧ wfTok rtYm = true ∧
    rtX.string = some rtXs ∧ rtX.json = some rtXj ∧
    rtY.string = some rtYs ∧ rtY.json = some rtYj ∧
    (stripWs false rtXj.data = rtXs.data ∧ stripWs false rtYj.data = rtYs.data) :=
  ⟨rfl, by decide, rfl, by decide, rfl, rfl, rfl, rfl,
    string_json_whitespace_equiv rtX rtY rtXm rtYm rtXs rtXj rtYs rtYj
      rfl (by decide) rfl (by decide) rfl rfl rfl rfl⟩

/-! ## The version field is always emitted (claim C10) -/

theorem renderObj_cons (k : String) (v : JValue) (fs : List (String × JValue)) :
    ∃ t, renderObj ((k, v) :: fs) =
      '"' :: escChars k.data ++ '"' :: ':' :: render v ++ t := by
  cases fs with
  | nil => exact ⟨[], by simp [renderObj]⟩
  | cons f fs2 =>
      exact ⟨',' :: renderObj (f :: fs2), by simp [renderObj, List.append_assoc]⟩

theorem renderIndObj_cons (d : Nat) (k : String) (v : JValue)
    (fs : List (String × JValue)) :
    ∃ t, renderIndObj d ((k, v) :: fs) =
      '"' :: escChars k.data ++ '"' :: ':' :: ' ' :: renderInd d v ++ t := by
  cases fs with
  | nil => exact ⟨[], by simp [renderIndObj]⟩
  | cons f fs2 =>
      exact ⟨',' :: (nlIndent d ++ renderIndObj d (f :: fs2)),
        by simp [renderIndObj, List.append_assoc]⟩

theorem render_obj_key (k : String) (v : JValue) (fs : List (String × JValue))
    (hesc : escChars k.data = k.data) :
    ∃ pre post, render (.jobj ((k, v) :: fs)) =
      pre ++ ('"' :: k.data ++ ['"']) ++ post := by
  obtain ⟨t, ht⟩ := renderObj_cons k v fs
  refine ⟨['{'], ':' :: render v ++ t ++ ['}'], ?_⟩
  rw [render, ht, hesc]
  simp [List.append_assoc]

theorem renderInd_obj_key (k : String) (v : JValue) (fs : List (String × JValue))
    (hesc : escChars k.data = k.data) :
    ∃ pre post, renderInd 0 (.jobj ((k, v) :: fs)) =
      pre ++ ('"' :: k.data ++ ['"']) ++ post := by
  obtain ⟨t, ht⟩ := renderIndObj_cons 1 k v fs
  refine ⟨'{' :: nlIndent 1, ':' :: ' ' :: renderInd 1 v ++ t ++ nlIndent 0 ++ ['}'], ?_⟩
  rw [renderInd, ht, hesc]
  simp [List.append_assoc]

/-- C10: the "version" field is always present in both the compact (String)
    and indented (JSON) encodings of a HealthInfoV2 report - its key appears
    in the marshalled document and the quoted key occurs literally in both
    output strings - even when the Version string is empty, since unlike
    Error and the omitempty-tagged fields the version field is not tagged
    omit-when-empty. -/
theorem version_always_present (x : HealthInfoV2) (mx : JValue) (sx jx : String)
    (hmx : encHealthInfoV2 x = some mx) (hsx : x.string = some sx)
    (hjx : x.json = some jx) :
    "version" ∈ topKeys mx ∧
    (∃ pre post, sx.data = pre ++ ('"' :: "version".data ++ ['"']) ++ post) ∧
    (∃ pre post, jx.data = pre ++ ('"' :: "version".data ++ ['"']) ++ post) := by
  rw [HealthInfoV2.string, hmx] at hsx
  rw [HealthInfoV2.json, hmx] at hjx
  simp only [Option.map_some', Option.some.injEq] at hsx hjx
  subst hsx hjx
  unfold encHealthInfoV2 at hmx
  simp only [bind, Option.bind_eq_some] at hmx
  obtain ⟨ts, hts, perf, hperf, hm⟩ := hmx
  simp only [pure, Option.some.injEq] at hm
  subst hm
  have hcast : (reqF "version" (.jstr x.Version) ++ optStrF "error" x.Error ++
      reqF "timestamp" ts ++ reqF "sys" (encSysInfo x.Sys) ++
      reqF "perf" perf ++ reqF "minio" (encMinioHealthInfo x.Minio)) =
      ("version", JValue.jstr x.Version) :: (optStrF "error" x.Error ++
        reqF "timestamp" ts ++ reqF "sys" (encSysInfo x.Sys) ++
        reqF "perf" perf ++ reqF "minio" (encMinioHealthInfo x.Minio)) := by
    simp [reqF, List.append_assoc]
  refine ⟨by simp [topKeys, reqF], ?_, ?_⟩
  · show ∃ pre post,
        render (.jobj (reqF "version" (.jstr x.Version) ++ optStrF "error" x.Error ++
          reqF "timestamp" ts ++ reqF "sys" (encSysInfo x.Sys) ++
          reqF "perf" perf ++ reqF "minio" (encMinioHealthInfo x.Minio))) =
        pre ++ ('"' :: "version".data ++ ['"']) ++ post
    rw [hcast]
    exact render_obj_key "version" (.jstr x.Version) _ rfl
  · show ∃ pre post,
        renderInd 0 (.jobj (reqF "version" (.jstr x.Version) ++ optStrF "error" x.Error ++
          reqF "timestamp" ts ++ reqF "sys" (encSysInfo x.Sys) ++
          reqF "perf" perf ++ reqF "minio" (encMinioHealthInfo x.Minio))) =
        pre ++ ('"' :: "version".data ++ ['"']) ++ post
    rw [hcast]
    exact renderInd_obj_key "version" (.jstr x.Version) _ rfl

def c10m : JValue := (encHealthInfoV2 HealthInfoV2.zero).getD (.jobj [])

def c10s : String := HealthInfoV2.zero.string.getD ""

def c10j : String := HealthInfoV2.zero.json.getD ""

/-- Witness for C10 at the all-zero report, whose Version string is empty. -/
theorem version_always_present_witness :
    HealthInfoV2.zero.Version = "" ∧
    encHealthInfoV2 HealthInfoV2.zero = some c10m ∧
    HealthInfoV2.zero.string = some c10s ∧ HealthInfoV2.zero.json = some c10j ∧
    ("version" ∈ topKeys c10m ∧
     (∃ pre post, c10s.data = pre ++ ('"' :: "version".data ++ ['"']) ++ post) ∧
     (∃ pre post, c10j.data = pre ++ ('"' :: "version".data ++ ['"']) ++ post)) :=
  ⟨rfl, rfl, rfl, rfl,
    version_always_present HealthInfoV2.zero c10m c10s c10j rfl rfl rfl⟩
